import Mathlib

/-!
# Verification of the mission-execution core of `@synet/agent`

Shallow embedding of the repository's core units:

* `SimpleTemplateEngine.render` (src/switch.unit.ts, src/smith.unit.ts,
  src/utils/template-engine.ts) — `{{name}}` placeholder substitution;
* `Memory` (src/memory.unit.ts) — bounded conversational buffer with
  FIFO eviction and event emission;
* the operational event log of `Switch` (`addEvent`, `getEventsContext`,
  `hasRecentErrors`, `getLastEvent`);
* the two mission controllers, `Switch.run` (src/switch.unit.ts) and
  `Smith.executeMission` (src/smith.unit.ts).

External chat collaborators (`ai.chat`, `ai.chatWithTools`) are opaque
request/response calls in the source; each call site is modelled by an
oracle field giving, per loop iteration, either the reply content
(`Except.ok`) or a thrown error message (`Except.error`).  All state
operations (memory pushes/pops, template rendering, history tracking)
are translated from the source.  Host primitives (`Date.now`,
`Math.random`, `JSON.stringify`) that only manufacture identifiers,
timestamps or serialized debug text are modelled by fixed strings or a
structural serializer; no claim depends on their exact output.
-/

/-- `role` field of a `ChatMessage` (`@synet/ai`). -/
inductive Role where
  | system
  | user
  | assistant
deriving DecidableEq

/-- The string the source stores in the `role` field. -/
def Role.str : Role → String
  | .system => "system"
  | .user => "user"
  | .assistant => "assistant"

/-- `ChatMessage` — `{ role, content }`. -/
structure ChatMessage where
  role : Role
  content : String
deriving DecidableEq

/-! ## Character and string utilities (JS built-ins used by the source) -/

/-- JS regex `\w`: `[A-Za-z0-9_]`. -/
def wordChar (c : Char) : Bool := c.isAlphanum || c == '_'

/-- JS `String.prototype.includes`: `containsSubstr needle hay = true` iff
`needle` occurs contiguously in `hay`. -/
def containsSubstr (needle : List Char) : List Char → Bool
  | [] => needle.isEmpty
  | c :: rest => needle.isPrefixOf (c :: rest) || containsSubstr needle rest

/-- Whitespace stripped by `String.prototype.trim` (ASCII part). -/
def isWs (c : Char) : Bool := c == ' ' || c == '\t' || c == '\n' || c == '\r'

/-- JS `String.prototype.trim` on the character list. -/
def trimChars (l : List Char) : List Char :=
  ((l.dropWhile isWs).reverse.dropWhile isWs).reverse

/-- JS `s.toLowerCase().trim()`, as used by the result classifiers. -/
def lowerTrim (s : String) : List Char :=
  trimChars (s.data.map Char.toLower)

/-! ## SimpleTemplateEngine (src/switch.unit.ts lines 50-66,
src/smith.unit.ts lines 49-61)

`render` performs the single global-regex pass
`rendered.replace(/\{\{(\w+)\}\}/g, (match, varName) => value !== undefined ? String(value) : match)`
followed by `.trim()`.  The regex scanner is translated literally: at
each position it tries to match `{{`, a nonempty run of word
characters, and `}}`; on success it emits the variable's string form
when the bag defines it and the match text itself otherwise, resuming
after the match; on failure it advances one character. -/

/-- One attempt of the regex `\{\{(\w+)\}\}` at the current position:
`some (name, rest)` when the input starts with `{{name}}` (`name` a
nonempty maximal run of word characters), `none` otherwise. -/
def matchVar : List Char → Option (List Char × List Char)
  | '{' :: '{' :: rest =>
    let w := rest.takeWhile wordChar
    match rest.dropWhile wordChar with
    | '}' :: '}' :: rest' => if w.isEmpty then none else some (w, rest')
    | _ => none
  | _ => none

/-- Termination bound for `renderChars` below: a successful placeholder
match consumes at least the four brace characters.  Stated as a `def`
(of proof type) because the recursive definition below uses it in its
`decreasing_by` script, before the lemma sections of this file. -/
def matchVar_some_len {l w r : List Char} (h : matchVar l = some (w, r)) :
    r.length + 4 ≤ l.length := by
  unfold matchVar at h
  split at h
  · rename_i rest
    simp only at h
    split at h
    · rename_i rest' hdrop
      split at h
      · exact absurd h (by simp)
      · have hd : (rest.dropWhile wordChar).length ≤ rest.length :=
          (List.dropWhile_sublist wordChar).length_le
        rw [hdrop] at hd
        simp only [List.length_cons] at hd
        cases h
        simp only [List.length_cons]
        omega
    · exact absurd h (by simp)
  · exact absurd h (by simp)

def renderChars (vars : String → Option String) : List Char → List Char
  | [] => []
  | c :: rest =>
    match h : matchVar (c :: rest) with
    | some (w, rest') =>
      match vars (String.mk w) with
      | some v => v.data ++ renderChars vars rest'
      | none => '{' :: '{' :: (w ++ '}' :: '}' :: renderChars vars rest')
    | none => c :: renderChars vars rest
termination_by l => l.length
decreasing_by
  all_goals simp only [List.length_cons]
  all_goals first
    | omega
    | (have hmv := matchVar_some_len h
       simp only [List.length_cons] at hmv
       omega)

/-- `{ prompt: { user, system } }` of a template. -/
structure TPrompt where
  user : String
  system : String
deriving DecidableEq

/-- The variable bag: `variables[varName]`, with `String(value)` already
applied to defined entries (`undefined` ↦ `none`). -/
def bagLookup (l : List (String × String)) : String → Option String :=
  fun n => l.lookup n

/-- `SimpleTemplateEngine.render`: substitute `{{name}}` placeholders in
the `user` field, then trim. -/
def SimpleTemplateEngine.render (template : TPrompt) (vars : String → Option String) : String :=
  String.mk (trimChars (renderChars vars template.user.data))

/-! ## Memory unit (src/memory.unit.ts)

`MemoryItem` ids and timestamps are manufactured from `Date.now()` /
`Math.random()`; they are carried as opaque strings supplied with the
item (no claim depends on them). -/

/-- `MemoryItem` — `{ id, data, timestamp, type? }`. -/
structure MemoryItem where
  id : String
  data : ChatMessage
  timestamp : String
  tag : Option String
deriving DecidableEq

/-- The mutable props of a `Memory` unit. -/
structure MemoryState where
  maxItems : Nat
  enableEvents : Bool
  items : List MemoryItem
deriving DecidableEq

/-- Events emitted to the unit's `EventEmitter` (timestamps omitted:
they come from the clock). -/
inductive MemoryEvent where
  | pushEv (item : MemoryItem) (total : Nat)
  | popEv (item : Option MemoryItem) (total : Nat)
  | listEv (count : Nat)
  | recallEv (query : String) (results : Nat)
  | clearEv (cleared : Nat)
  | evicted (removed : MemoryItem) (reason : String)
deriving DecidableEq

/-- `Memory.create(config)`: `maxItems: config.maxItems || 100` (so `0`
or absent falls back to 100), `enableEvents: config.enableEvents !==
false`, empty item list. -/
def Memory.create (maxItems? : Option Nat) (enableEvents : Bool) : MemoryState :=
  { maxItems := match maxItems? with
      | some n => if n = 0 then 100 else n
      | none => 100
    enableEvents := enableEvents
    items := [] }

/-- `Memory.push(data, type?)`: append the item; if the cap is now
exceeded, `shift()` the oldest item and (when events are enabled) emit
an `evicted` event; then (when events are enabled) emit a `push` event
carrying the new total.  Returns the new state and the emitted events
in order. -/
def Memory.push (s : MemoryState) (item : MemoryItem) : MemoryState × List MemoryEvent :=
  let items1 := s.items ++ [item]
  let (items2, evictEvents) :=
    if items1.length > s.maxItems then
      match items1 with
      | removed :: rest =>
        (rest, if s.enableEvents then [MemoryEvent.evicted removed "max_items_exceeded"] else [])
      | [] => ([], [])
    else (items1, [])
  let pushEvents := if s.enableEvents then [MemoryEvent.pushEv item items2.length] else []
  ({ s with items := items2 }, evictEvents ++ pushEvents)

/-- `Memory.pop()`: remove and return the last item (`null` on empty);
emits a `pop` event when enabled. -/
def Memory.pop (s : MemoryState) : MemoryState × Option MemoryItem × List MemoryEvent :=
  let item := s.items.getLast?
  let items2 := s.items.dropLast
  ({ s with items := items2 }, item,
    if s.enableEvents then [MemoryEvent.popEv item items2.length] else [])

/-- `Memory.list()`: a read-only copy of the items (the debug `list`
event it also emits is not modelled as part of the return value). -/
def Memory.list (s : MemoryState) : List MemoryItem :=
  s.items

/-- `Memory.getMessages()`: project the chat payloads.  The source
filters items whose `data` structurally is a chat message; in this
typed model every payload is one, so the filter keeps everything. -/
def Memory.getMessages (s : MemoryState) : List ChatMessage :=
  s.items.map (·.data)

/-- Fold a sequence of pushes (only the resulting states matter). -/
def Memory.pushMany (s : MemoryState) (its : List MemoryItem) : MemoryState :=
  its.foldl (fun st it => (Memory.push st it).1) s

/-! ## Operational event log of `Switch` (src/switch.unit.ts lines 381-423) -/

/-- `AgentEvent` — `{ type, message, timestamp }` (the source fills a
missing timestamp from the clock before storing). -/
structure AgentEvent where
  type : String
  message : String
  timestamp : String
deriving DecidableEq

/-- `Switch.addEvent`: push the event, then `slice(-10)` when more than
10 are retained.  No event is emitted by this operation. -/
def Switch.addEvent (log : List AgentEvent) (e : AgentEvent) : List AgentEvent :=
  let log' := log ++ [e]
  if log'.length > 10 then log'.drop (log'.length - 10) else log'

/-- `Switch.getLastEvent`: serialized text of the newest event, or
`null` when the log is empty. -/
def Switch.getLastEvent (log : List AgentEvent) : Option String :=
  match log.getLast? with
  | none => none
  | some e =>
    some ("Event: " ++ e.type ++ "\nMessage: " ++ e.message ++ "\nTimestamp: " ++ e.timestamp)

/-- Structural model of the host builtin `JSON.stringify` on one event
(injective serializer; only which events are serialized matters). -/
def serializeEvent (e : AgentEvent) : String :=
  "\x7b \"type\": \"" ++ e.type ++ "\", \"message\": \"" ++ e.message ++
    "\", \"timestamp\": \"" ++ e.timestamp ++ "\" \x7d"

/-- `JSON.stringify(recentEvents, null, 2)` over a list of events. -/
def serializeEvents (l : List AgentEvent) : String :=
  "[" ++ String.intercalate ",\n" (l.map serializeEvent) ++ "]"

/-- `Switch.getEventsContext`: `"No events detected."` on an empty log,
otherwise the JSON text of the last 5 (`slice(-5)`) retained events. -/
def Switch.getEventsContext (log : List AgentEvent) : String :=
  if log.length = 0 then "No events detected."
  else serializeEvents (log.drop (log.length - 5))

/-- `Switch.hasRecentErrors`: `event.type.includes('error') ||
event.message.toLowerCase().includes('error')` over the retained
events.  Note: the `type` field is tested without lower-casing. -/
def Switch.hasRecentErrors (log : List AgentEvent) : Bool :=
  log.any fun e =>
    containsSubstr "error".data e.type.data ||
    containsSubstr "error".data (e.message.data.map Char.toLower)

/-! ## Mission controllers — shared pieces -/

/-- The structured execution result (`SmithExecution` in both
controller files): `{ goal, messages, completed, iterations, result? }`. -/
structure SmithExecution where
  goal : String
  messages : List ChatMessage
  completed : Bool
  iterations : Nat
  result : Option String
deriving DecidableEq

/-- `errorRecovery` of an identity configuration. -/
structure ErrorRecovery where
  maxRetries : Nat
  fallbackStrategy : String
  escalationThreshold : String
deriving DecidableEq

/-- `missionStrategy` of an identity configuration. -/
structure MissionStrategy where
  analysis : String
  toolSelection : String
  promptGeneration : String
  responseEvaluation : String
deriving DecidableEq

/-- One named template of the instruction bundle:
`{ prompt: { user, system }, variables }` (the `variables` field is
called `variableNames` here because `variables` is a Lean keyword). -/
structure AgentTemplate where
  prompt : TPrompt
  variableNames : List String
deriving DecidableEq

/-- `AgentInstructions`: the four required templates (present by type;
their absence throws at first use in the source). -/
structure AgentInstructions where
  name : String
  description : String
  version : String
  taskBreakdown : AgentTemplate
  workerPromptGeneration : AgentTemplate
  resultAnalysis : AgentTemplate
  finalReport : AgentTemplate
deriving DecidableEq

/-- Outcome classification shared by both variants. -/
inductive Classification where
  | completed
  | failed
  | next_task
deriving DecidableEq

/-! ## Switch controller (src/switch.unit.ts) -/

/-- `SwitchIdentity` (loaded from config at `create` time). -/
structure SwitchIdentity where
  name : String
  description : String
  systemPrompt : String
  promptTemplate : String
  missionStrategy : MissionStrategy
  completionSignals : List String
  errorRecovery : ErrorRecovery
deriving DecidableEq

/-- The props of a `Switch` instance that `run` reads (its `Memory` is
threaded through `run` explicitly; `capabilitiesList` is
`this.capabilities().list()` after `learn`). -/
structure SwitchProps where
  identity : SwitchIdentity
  maxIterations : Nat
  eventMemory : List AgentEvent
  templateInstructions : AgentInstructions
  capabilitiesList : List String
deriving DecidableEq

/-- Oracle for the external chat collaborators of `Switch.run`: each
field is the outcome of one `ai.chat` / `ai.chatWithTools` call site
(`.ok content` = reply, `.error msg` = thrown exception), indexed by
the loop iteration counter where the site sits inside the loop. -/
structure SwitchAI where
  breakdown : Except String String
  nextStep : Nat → Except String String
  worker : Nat → Except String String
  analysis : Nat → Except String String
  finalReport : Except String String

/-- The classification step of `Switch.run` (lines 307-323):
`result = analysis.content.toLowerCase().trim()`, test `'completed'`
first, then `'failed'`, else continue. -/
def Switch.classify (content : String) : Classification :=
  if containsSubstr "completed".data (lowerTrim content) then .completed
  else if containsSubstr "failed".data (lowerTrim content) then .failed
  else .next_task

/-- The memory item a `memory.push({role, content})` call creates (id
and timestamp come from the clock; no `type` tag is passed). -/
def mkItem (m : ChatMessage) : MemoryItem :=
  { id := "", data := m, timestamp := "", tag := none }

/-- Variable bag of the `taskBreakdown` render (lines 215-219). -/
def Switch.taskBreakdownVars (p : SwitchProps) (task : String) : String → Option String :=
  let joined := String.intercalate ", " p.capabilitiesList
  bagLookup
    [("task", task),
     ("tools", if joined = "" then "No tools available" else joined),
     ("schemas", "Schemas are included in the tool call")]

/-- Variable bag of the `workerPromptGeneration` render (lines 245-247). -/
def Switch.workerPromptVars (p : SwitchProps) : String → Option String :=
  bagLookup [("promptTemplate", p.identity.promptTemplate)]

/-- Variable bag of the `resultAnalysis` render (lines 289-293):
`iteration`, `maxIterations` (decimal `String(number)` form) and
`systemEvents` = the serialized last event or `'No new events'`. -/
def Switch.analysisVars (p : SwitchProps) (iteration : Nat) : String → Option String :=
  bagLookup
    [("iteration", toString iteration),
     ("maxIterations", toString p.maxIterations),
     ("systemEvents", (Switch.getLastEvent p.eventMemory).getD "No new events")]

/-- The numbered transcript `generateFinalReport` builds from the
memory messages minus the leading system turn (line 358). -/
def conversationTranscript (msgs : List ChatMessage) : String :=
  String.intercalate "\n"
    ((msgs.drop 1).enum.map fun p =>
      toString (p.1 + 1) ++ ". " ++ String.mk (p.2.role.str.data.map Char.toUpper) ++ ": " ++ p.2.content)

/-- One body execution of the `while` loop of `Switch.run` (lines
240-326).  Returns the updated execution record and memory, plus
`some msg` when a collaborator call threw (the exception propagates
out of the loop to the top-level catch with the state as of the
throw). -/
def switchIterate (p : SwitchProps) (ai : SwitchAI) (exec : SmithExecution)
    (mem : MemoryState) : SmithExecution × MemoryState × Option String :=
  let exec1 := { exec with iterations := exec.iterations + 1 }
  let k := exec1.iterations
  -- rendered, then sent to the planner together with the full memory context
  let _promptTemplate :=
    SimpleTemplateEngine.render p.templateInstructions.workerPromptGeneration.prompt
      (Switch.workerPromptVars p)
  match ai.nextStep k with
  | .error e => (exec1, mem, some e)
  | .ok nextStepContent =>
    -- planning is NOT stored in memory; the worker gets a clean context
    -- [system identity.systemPrompt, user nextStepContent]
    match ai.worker k with
    | .error e => (exec1, mem, some e)
    | .ok responseContent =>
      let mem1 := (Memory.push mem (mkItem ⟨.assistant, responseContent⟩)).1
      let exec2 := { exec1 with
        messages := exec1.messages ++
          [⟨.assistant, "Planning: " ++ nextStepContent⟩, ⟨.assistant, responseContent⟩] }
      let analysisPrompt :=
        SimpleTemplateEngine.render p.templateInstructions.resultAnalysis.prompt
          (Switch.analysisVars p k)
      let mem2 := (Memory.push mem1 (mkItem ⟨.user, analysisPrompt⟩)).1
      match ai.analysis k with
      | .error e => (exec2, mem2, some e)
      | .ok analysisContent =>
        let mem3 := (Memory.pop mem2).1
        match Switch.classify analysisContent with
        | .completed => ({ exec2 with completed := true }, mem3, none)
        | .failed => ({ exec2 with completed := true }, mem3, none)
        | .next_task => (exec2, mem3, none)

/-- The `while (!execution.completed && execution.iterations <
maxIterations)` loop.  The fuel argument is `maxIterations -
iterations`, the exact number of loop entries the condition still
allows, so recursion on it is structural. -/
def switchLoop (p : SwitchProps) (ai : SwitchAI) :
    Nat → SmithExecution → MemoryState → SmithExecution × MemoryState × Option String
  | 0, exec, mem => (exec, mem, none)
  | fuel + 1, exec, mem =>
    if exec.completed then (exec, mem, none)
    else
      match switchIterate p ai exec mem with
      | (exec', mem', some e) => (exec', mem', some e)
      | (exec', mem', none) => switchLoop p ai fuel exec' mem'

/-- The fresh execution record created at the top of `run` (line 197). -/
def Switch.execInit (task : String) : SmithExecution :=
  { goal := task, messages := [], completed := false, iterations := 0, result := none }

/-- The memory right after the pre-`try` push of the system prompt
(lines 206-209); `Switch.create` built it with `Memory.create()`. -/
def Switch.memSys (p : SwitchProps) : MemoryState :=
  (Memory.push (Memory.create none true) (mkItem ⟨.system, p.identity.systemPrompt⟩)).1

/-- The rendered task-breakdown prompt (lines 215-219). -/
def Switch.taskPrompt (p : SwitchProps) (task : String) : String :=
  SimpleTemplateEngine.render p.templateInstructions.taskBreakdown.prompt
    (Switch.taskBreakdownVars p task)

/-- The memory entering the loop: system prompt, rendered breakdown
prompt, and the planner's breakdown reply (lines 229-237). -/
def Switch.memStart (p : SwitchProps) (task breakdownContent : String) : MemoryState :=
  (Memory.push
    (Memory.push (Switch.memSys p) (mkItem ⟨.user, Switch.taskPrompt p task⟩)).1
    (mkItem ⟨.assistant, breakdownContent⟩)).1

/-- The `try` block of `Switch.run` (lines 211-335): entry breakdown
call, the loop, and the final-report call when completed.  Returns the
execution record, the memory, and `some msg` when an exception reached
the top-level catch. -/
def Switch.runBody (p : SwitchProps) (ai : SwitchAI) (task : String) :
    SmithExecution × MemoryState × Option String :=
  match ai.breakdown with
  | .error e => (Switch.execInit task, Switch.memSys p, some e)
  | .ok breakdownContent =>
    match switchLoop p ai p.maxIterations (Switch.execInit task)
        (Switch.memStart p task breakdownContent) with
    | (exec, mem, some e) => (exec, mem, some e)
    | (exec, mem, none) =>
      if exec.completed then
        -- generateFinalReport renders the finalReport template over the
        -- transcript and asks a plain (non-tool) chat for the summary
        let _finalReportPrompt :=
          SimpleTemplateEngine.render p.templateInstructions.finalReport.prompt
            (bagLookup [("conversationHistory", conversationTranscript (Memory.getMessages mem))])
        match ai.finalReport with
        | .error e => (exec, mem, some e)
        | .ok report => ({ exec with result := some report }, mem, none)
      else (exec, mem, none)

/-- `Switch.run` (lines 194-350): the `try` body wrapped by the
top-level catch, which appends the diagnostic user turn
`Error occurred: <message>. <fallbackStrategy>` to memory and lets
`run` return the execution record normally. -/
def Switch.run (p : SwitchProps) (ai : SwitchAI) (task : String) :
    Except String (SmithExecution × MemoryState) :=
  match Switch.runBody p ai task with
  | (exec, mem, none) => .ok (exec, mem)
  | (exec, mem, some e) =>
    .ok (exec, (Memory.push mem (mkItem ⟨.user,
      "Error occurred: " ++ e ++ ". " ++ p.identity.errorRecovery.fallbackStrategy⟩)).1)

/-! ## Smith controller (src/smith.unit.ts) -/

/-- `SmithIdentity` (loaded from config at `create` time). -/
structure SmithIdentity where
  name : String
  description : String
  objective : String
  promptTemplate : String
  systemPrompt : String
  workerPrompt : String
  missionStrategy : MissionStrategy
  completionSignals : List String
  errorRecovery : ErrorRecovery
deriving DecidableEq

/-- The props of a `Smith` instance that `executeMission` reads. -/
structure SmithProps where
  identity : SmithIdentity
  maxIterations : Nat
  learnedTools : List String
  fsEventMemory : List String
  templateInstructions : AgentInstructions
deriving DecidableEq

/-- Oracle for the chat collaborators of `Smith.executeMission`, one
field per call site, indexed by the loop iteration counter. -/
structure SmithAI where
  breakdown : Except String String
  promptGen : Nat → Except String String
  worker : Nat → Except String String
  analysis : Nat → Except String String
  finalReport : Except String String

/-- `Smith.getFileSystemContext` (lines 224-230). -/
def Smith.getFileSystemContext (evts : List String) : String :=
  if evts.isEmpty then "No filesystem operations detected yet."
  else "Recent filesystem operations:\n" ++ String.intercalate "\n" evts

/-- `Smith.hasRecentFileSystemErrors` (lines 235-237). -/
def Smith.hasRecentFileSystemErrors (evts : List String) : Bool :=
  evts.any fun e => containsSubstr "❌ FS-ERROR".data e.data

/-- `Smith.getLastFileSystemError` (lines 242-249): scan from the end
for the first event containing the error marker. -/
def Smith.getLastFileSystemError (evts : List String) : Option String :=
  evts.reverse.find? fun e => containsSubstr "❌ FS-ERROR".data e.data

/-- The analysis prompt `Smith.analyzeResult` builds (lines 458-479);
`${lastError}` interpolates JS `null` as `"null"`. -/
def Smith.analysisPromptText (fsContext : String) (hasErrors : Bool)
    (lastError : Option String) (response : String) : String :=
  "Analyze the worker AI response and determine mission status.\n\n" ++
  "WORKER AI RESPONSE: " ++ response ++ "\n\n" ++
  "FILESYSTEM OPERATIONS STATUS:\n" ++ fsContext ++ "\n\n" ++
  (if hasErrors then
    "⚠️ CRITICAL: Recent filesystem error detected: " ++ lastError.getD "null"
   else "") ++ "\n\n" ++
  "Based on the response above and the conversation history, determine:\n" ++
  "- Is the ENTIRE mission completed successfully? \n" ++
  "- Or should we continue with the next task?\n" ++
  "- Are there any filesystem operation failures that need to be addressed?\n\n" ++
  (if hasErrors then
    "NOTE: If there are filesystem errors, the mission is NOT completed regardless of what the worker claims."
   else "") ++ "\n\n" ++
  "Check for completion signals like \"MISSION_COMPLETE\", successful file saves, or mission objectives achieved.\n" ++
  "IMPORTANT: Verify actual filesystem operation success, not just worker claims.\n\n" ++
  "Respond with ONLY one word:\n" ++
  "- \"completed\" if the entire mission is finished AND no filesystem errors exist\n" ++
  "- \"next_task\" if we should continue with the next step OR if filesystem errors need fixing"

/-- The classification step of `Smith.analyzeResult` (lines 491-492):
only `'completed'` is tested; every other reply means `next_task`. -/
def Smith.analyzeClassify (content : String) : Classification :=
  if containsSubstr "completed".data (lowerTrim content) then .completed else .next_task

/-- Variable bag of Smith's `taskBreakdown` render (lines 415-418). -/
def Smith.taskBreakdownVars (p : SmithProps) (task : String) : String → Option String :=
  let joined := String.intercalate ", " p.learnedTools
  bagLookup
    [("task", task),
     ("availableTools", if joined = "" then "No tools available" else joined)]

/-- The final-report prompt of `Smith.generateFinalReport`
(lines 499-512). -/
def Smith.finalReportText (smithMemory : List ChatMessage) : String :=
  "Mission completed! Generate a final summary report.\n\n" ++
  "CONVERSATION HISTORY:\n" ++ conversationTranscript smithMemory ++ "\n\n" ++
  "Based on the conversation history above, create a concise mission summary:\n\n" ++
  "MISSION SUMMARY:\n" ++
  "- Original Goal: [extract from history]\n" ++
  "- Steps Completed: [list key accomplishments]\n" ++
  "- Final Result: [what was achieved]\n" ++
  "- Status: Mission Complete\n\n" ++
  "Generate ONLY a text summary report. Do not use any tools during this final report generation."

/-- One body execution of the `while` loop of `Smith.executeMission`
(lines 314-382), including the inlined `analyzeResult`.  State:
`(execution, smithMemory, workerMemory)`; the last component of the
result is `some msg` when a collaborator call threw. -/
def smithIterate (p : SmithProps) (ai : SmithAI)
    (exec : SmithExecution) (sm wm : List ChatMessage) :
    SmithExecution × List ChatMessage × List ChatMessage × Option String :=
  let exec1 := { exec with iterations := exec.iterations + 1 }
  let k := exec1.iterations
  let promptTemplate :=
    SimpleTemplateEngine.render p.templateInstructions.workerPromptGeneration.prompt
      (bagLookup [("promptTemplate", p.identity.promptTemplate)])
  -- the prompt-generation request is pushed before the call and popped after
  let sm1 := sm ++ [⟨.user, promptTemplate⟩]
  match ai.promptGen k with
  | .error e => (exec1, sm1, wm, some e)
  | .ok workerPrompt =>
    let sm2 := sm1.dropLast
    let wm1 := wm ++ [⟨.user, workerPrompt⟩]
    match ai.worker k with
    | .error e => (exec1, sm2, wm1, some e)
    | .ok responseContent =>
      let wm2 := wm1 ++ [⟨.assistant, responseContent⟩]
      let sm3 := sm2 ++ [⟨.user, workerPrompt⟩, ⟨.assistant, responseContent⟩]
      let exec2 := { exec1 with
        messages := exec1.messages ++
          [⟨.user, workerPrompt⟩, ⟨.assistant, responseContent⟩] }
      -- analyzeResult(smithMemory, response.content)
      let fsContext := Smith.getFileSystemContext p.fsEventMemory
      let hasErrors := Smith.hasRecentFileSystemErrors p.fsEventMemory
      let lastError := Smith.getLastFileSystemError p.fsEventMemory
      let analysisPrompt := Smith.analysisPromptText fsContext hasErrors lastError responseContent
      let sm4 := sm3 ++ [⟨.user, analysisPrompt⟩]
      match ai.analysis k with
      | .error e => (exec2, sm4, wm2, some e)
      | .ok analysisContent =>
        let sm5 := sm4.dropLast
        match Smith.analyzeClassify analysisContent with
        | .completed => ({ exec2 with completed := true }, sm5, wm2, none)
        | _ => (exec2, sm5, wm2, none)

/-- The `while` loop of `Smith.executeMission`; fuel as in
`switchLoop`. -/
def smithLoop (p : SmithProps) (ai : SmithAI) :
    Nat → SmithExecution → List ChatMessage → List ChatMessage →
      SmithExecution × List ChatMessage × List ChatMessage × Option String
  | 0, exec, sm, wm => (exec, sm, wm, none)
  | fuel + 1, exec, sm, wm =>
    if exec.completed then (exec, sm, wm, none)
    else
      match smithIterate p ai exec sm wm with
      | (exec', sm', wm', some e) => (exec', sm', wm', some e)
      | (exec', sm', wm', none) => smithLoop p ai fuel exec' sm' wm'

/-- The fresh execution record created at the top of `executeMission`
(line 282). -/
def Smith.execInit (task : String) : SmithExecution :=
  { goal := task, messages := [], completed := false, iterations := 0, result := none }

/-- Smith's initial memory: the system prompt (lines 290-292). -/
def Smith.smInit (p : SmithProps) : List ChatMessage :=
  [⟨.system, p.identity.systemPrompt⟩]

/-- The worker's initial memory (lines 295-297). -/
def Smith.wmInit (p : SmithProps) : List ChatMessage :=
  [⟨.system, p.identity.workerPrompt⟩]

/-- Smith's memory entering the loop: system prompt, the original
mission text and the breakdown reply (lines 305-311). -/
def Smith.smStart (p : SmithProps) (task breakdownContent : String) : List ChatMessage :=
  Smith.smInit p ++ [⟨.user, task⟩, ⟨.assistant, breakdownContent⟩]

/-- The `try` block of `Smith.executeMission` (lines 299-398): the
template-driven `getTaskBreakdown` entry call (the original mission
text and the reply are pushed to Smith's memory), the loop, and the
final-report call when completed. -/
def Smith.runBody (p : SmithProps) (ai : SmithAI) (task : String) :
    SmithExecution × List ChatMessage × List ChatMessage × Option String :=
  let _renderedBreakdownPrompt :=
    SimpleTemplateEngine.render p.templateInstructions.taskBreakdown.prompt
      (Smith.taskBreakdownVars p task)
  match ai.breakdown with
  | .error e => (Smith.execInit task, Smith.smInit p, Smith.wmInit p, some e)
  | .ok breakdownContent =>
    match smithLoop p ai p.maxIterations (Smith.execInit task)
        (Smith.smStart p task breakdownContent) (Smith.wmInit p) with
    | (exec, sm, wm, some e) => (exec, sm, wm, some e)
    | (exec, sm, wm, none) =>
      if exec.completed then
        let _finalReportPrompt := Smith.finalReportText sm
        match ai.finalReport with
        | .error e => (exec, sm, wm, some e)
        | .ok report => ({ exec with result := some report }, sm, wm, none)
      else (exec, sm, wm, none)

/-- `Smith.executeMission` (lines 279-405): the `try` body wrapped by
the top-level catch, which appends the diagnostic user turn to Smith's
memory and returns the execution record normally. -/
def Smith.executeMission (p : SmithProps) (ai : SmithAI) (task : String) :
    Except String (SmithExecution × List ChatMessage × List ChatMessage) :=
  match Smith.runBody p ai task with
  | (exec, sm, wm, none) => .ok (exec, sm, wm)
  | (exec, sm, wm, some e) =>
    .ok (exec, sm ++ [⟨.user,
      "Error occurred: " ++ e ++ ". " ++ p.identity.errorRecovery.fallbackStrategy⟩], wm)


/-! ## Concrete fixtures (used by the closed instance theorems) -/

def fixTemplates : AgentInstructions :=
  { name := "mission-templates", description := "test bundle", version := "1.0.0",
    taskBreakdown := ⟨⟨"Mission: {{task}} Tools: {{tools}}", "You plan missions."⟩,
      ["task", "tools", "schemas"]⟩,
    workerPromptGeneration := ⟨⟨"Generate the next step using {{promptTemplate}}",
      "You generate prompts."⟩, ["promptTemplate"]⟩,
    resultAnalysis := ⟨⟨"Iteration {{iteration}} of {{maxIterations}}. Events: {{systemEvents}}",
      "You analyze results."⟩, ["iteration", "maxIterations", "systemEvents"]⟩,
    finalReport := ⟨⟨"Summarize: {{conversationHistory}}", "You report."⟩,
      ["conversationHistory"]⟩ }

def fixSwitchProps : SwitchProps :=
  { identity :=
      { name := "Switch", description := "AI Agent", systemPrompt := "You are Switch.",
        promptTemplate := "Do the next step.",
        missionStrategy := ⟨"analyze", "select", "generate", "evaluate"⟩,
        completionSignals := ["MISSION_COMPLETE"],
        errorRecovery := ⟨3, "Retry with simpler approach.", "high"⟩ },
    maxIterations := 3, eventMemory := [], templateInstructions := fixTemplates,
    capabilitiesList := [] }

/-- Collaborators whose planner call throws in iteration 1 and behave
normally (never signalling completion) afterwards. -/
def fixAIErr : SwitchAI :=
  { breakdown := .ok "1. do things",
    nextStep := fun k => if k = 1 then .error "network down" else .ok "step",
    worker := fun _ => .ok "did the step",
    analysis := fun _ => .ok "keep going",
    finalReport := .ok "final report" }

/-- Collaborators whose analysis call throws in iteration 1 and behave
normally (never signalling completion) otherwise. -/
def fixAIErrAnalysis : SwitchAI :=
  { breakdown := .ok "1. do things",
    nextStep := fun _ => .ok "step",
    worker := fun _ => .ok "did the step",
    analysis := fun k => if k = 1 then .error "provider down" else .ok "keep going",
    finalReport := .ok "final report" }

/-- Collaborators that always succeed and never signal completion. -/
def fixAIContinue : SwitchAI :=
  { breakdown := .ok "1. do things",
    nextStep := fun _ => .ok "step",
    worker := fun _ => .ok "did the step",
    analysis := fun _ => .ok "keep going",
    finalReport := .ok "final report" }

/-- Collaborators whose analysis replies contain "failed". -/
def fixAIFail : SwitchAI :=
  { breakdown := .ok "1. do things",
    nextStep := fun _ => .ok "step",
    worker := fun _ => .ok "did the step",
    analysis := fun _ => .ok "Task failed due to permissions.",
    finalReport := .ok "final report" }

def fixSmithProps : SmithProps :=
  { identity :=
      { name := "Smith", description := "Mission orchestrator", objective := "solve missions",
        promptTemplate := "Template %%task%%", systemPrompt := "You are Smith.",
        workerPrompt := "You are the worker.",
        missionStrategy := ⟨"analyze", "select", "generate", "evaluate"⟩,
        completionSignals := ["MISSION_COMPLETE"],
        errorRecovery := ⟨3, "Retry with simpler approach.", "high"⟩ },
    maxIterations := 3, learnedTools := [], fsEventMemory := [],
    templateInstructions := fixTemplates }

def fixSmithAI : SmithAI :=
  { breakdown := .ok "1. do things",
    promptGen := fun _ => .ok "use the weather tool",
    worker := fun _ => .ok "fetched the weather",
    analysis := fun _ => .ok "keep going",
    finalReport := .ok "final report" }

/-- Smith collaborators whose worker call throws in iteration 1 and
behave normally (never signalling completion) otherwise. -/
def fixSmithAIErr : SmithAI :=
  { breakdown := .ok "1. do things",
    promptGen := fun _ => .ok "use the weather tool",
    worker := fun k => if k = 1 then .error "tool crash" else .ok "fetched the weather",
    analysis := fun _ => .ok "keep going",
    finalReport := .ok "final report" }

def fixItem (k : Nat) : MemoryItem :=
  { id := "mem_" ++ toString k, data := ⟨.user, "message " ++ toString k⟩,
    timestamp := toString k, tag := none }

def fixEvent (k : Nat) : AgentEvent :=
  { type := "file.write", message := "wrote chunk " ++ toString k, timestamp := toString k }

/-- A concrete execution state sitting mid-mission (used to witness the
iteration-level theorems). -/
def fixExec : SmithExecution :=
  { goal := "mission", messages := [⟨.assistant, "Planning: step"⟩], completed := false,
    iterations := 1, result := none }

def fixMem : MemoryState :=
  { maxItems := 100, enableEvents := true, items := [mkItem ⟨.system, "You are Switch."⟩] }

/-- A buffer at capacity (used to witness the eviction behaviour). -/
def fixFullMem : MemoryState :=
  { maxItems := 2, enableEvents := true, items := [fixItem 1, fixItem 2] }

/-! ## Lemmas: template engine -/

theorem takeWhile_all_app {p : Char → Bool} {n : List Char} (hn : ∀ c ∈ n, p c = true)
    {x : Char} (hx : p x = false) (l : List Char) :
    (n ++ x :: l).takeWhile p = n ∧ (n ++ x :: l).dropWhile p = x :: l := by
  induction n with
  | nil => simp [List.takeWhile_cons, List.dropWhile_cons, hx]
  | cons a t ih =>
    have ha : p a = true := hn a (by simp)
    have ht : ∀ c ∈ t, p c = true := fun c hc => hn c (by simp [hc])
    obtain ⟨h1, h2⟩ := ih ht
    simp [List.takeWhile_cons, List.dropWhile_cons, ha, h1, h2]

theorem matchVar_eval {n post : List Char} (hn : n ≠ []) (hw : ∀ c ∈ n, wordChar c = true) :
    matchVar ('{' :: '{' :: (n ++ '}' :: '}' :: post)) = some (n, post) := by
  have hb : wordChar '}' = false := by decide
  obtain ⟨h1, h2⟩ := takeWhile_all_app hw hb ('}' :: post)
  unfold matchVar
  simp only [h1, h2, List.isEmpty_eq_true]
  simp [hn]

theorem matchVar_cons_ne {c : Char} {l : List Char} (hc : c ≠ '{') :
    matchVar (c :: l) = none := by
  unfold matchVar
  split
  · rename_i heq
    exact absurd (List.head_eq_of_cons_eq heq) hc
  · rfl

theorem renderChars_nil (vars : String → Option String) : renderChars vars [] = [] := by
  unfold renderChars
  rfl

theorem renderChars_cons_ne {vars : String → Option String} {c : Char} {l : List Char}
    (hc : c ≠ '{') : renderChars vars (c :: l) = c :: renderChars vars l := by
  conv_lhs => unfold renderChars
  rw [matchVar_cons_ne hc]

theorem renderChars_subst {vars : String → Option String} {n post : List Char}
    (hn : n ≠ []) (hw : ∀ c ∈ n, wordChar c = true) :
    renderChars vars ('{' :: '{' :: (n ++ '}' :: '}' :: post)) =
      match vars (String.mk n) with
      | some v => v.data ++ renderChars vars post
      | none => '{' :: '{' :: (n ++ '}' :: '}' :: renderChars vars post) := by
  conv_lhs => unfold renderChars
  rw [matchVar_eval hn hw]

theorem renderChars_app_clean {vars : String → Option String} {pre : List Char}
    (hpre : '{' ∉ pre) (l : List Char) :
    renderChars vars (pre ++ l) = pre ++ renderChars vars l := by
  induction pre with
  | nil => simp
  | cons a t ih =>
    have ha : a ≠ '{' := fun h => hpre (h ▸ List.mem_cons_self a t)
    have ht : '{' ∉ t := fun h => hpre (List.mem_cons_of_mem a h)
    simp only [List.cons_append, renderChars_cons_ne ha, ih ht]

theorem renderChars_clean {vars : String → Option String} {l : List Char}
    (hl : '{' ∉ l) : renderChars vars l = l := by
  have h := @renderChars_app_clean vars l hl []
  simpa [renderChars_nil] using h

/-! ## Lemmas: substring test and classification -/

theorem containsSubstr_iff_occurs {n l : List Char} :
    containsSubstr n l = true ↔ n <:+: l := by
  induction l with
  | nil =>
    simp only [containsSubstr, List.isEmpty_iff, List.infix_nil]
  | cons c t ih =>
    simp only [containsSubstr, Bool.or_eq_true, List.isPrefixOf_iff_prefix, ih,
      List.infix_cons_iff]

theorem trimChars_occurs (l : List Char) : trimChars l <:+: l := by
  unfold trimChars
  have h1 : l.dropWhile isWs <:+ l := List.dropWhile_suffix isWs
  have h2 : (l.dropWhile isWs).reverse.dropWhile isWs <:+ (l.dropWhile isWs).reverse :=
    List.dropWhile_suffix isWs
  have h3 : ((l.dropWhile isWs).reverse.dropWhile isWs).reverse <+: l.dropWhile isWs := by
    rw [← List.reverse_suffix]
    simpa using h2
  exact h3.isInfix.trans h1.isInfix

theorem containsSubstr_trim_false {n l : List Char}
    (h : containsSubstr n l = false) : containsSubstr n (trimChars l) = false := by
  by_contra hx
  have ht : containsSubstr n (trimChars l) = true := by
    cases hc : containsSubstr n (trimChars l) with
    | false => exact absurd hc hx
    | true => rfl
  have : containsSubstr n l = true := by
    rw [containsSubstr_iff_occurs] at ht ⊢
    exact ht.trans (trimChars_occurs l)
  rw [this] at h
  simp at h

theorem classify_next_task {s : String}
    (h1 : containsSubstr "completed".data (s.data.map Char.toLower) = false)
    (h2 : containsSubstr "failed".data (s.data.map Char.toLower) = false) :
    Switch.classify s = .next_task := by
  unfold Switch.classify
  unfold lowerTrim
  rw [containsSubstr_trim_false h1, containsSubstr_trim_false h2]
  simp

/-! ## Lemmas: Memory -/

theorem Memory.push_no_evict {s : MemoryState} {it : MemoryItem}
    (h : s.items.length + 1 ≤ s.maxItems) :
    Memory.push s it =
      ({ s with items := s.items ++ [it] },
       if s.enableEvents then [MemoryEvent.pushEv it (s.items.length + 1)] else []) := by
  unfold Memory.push
  have hc : ¬(s.maxItems < s.items.length + 1) := by omega
  simp [List.length_append, hc]

theorem Memory.push_evict {s : MemoryState} {it first : MemoryItem} {rest : List MemoryItem}
    (hitems : s.items = first :: rest) (hfull : s.items.length = s.maxItems) :
    Memory.push s it =
      ({ s with items := rest ++ [it] },
       (if s.enableEvents then [MemoryEvent.evicted first "max_items_exceeded"] else []) ++
       (if s.enableEvents then [MemoryEvent.pushEv it (rest.length + 1)] else [])) := by
  unfold Memory.push
  rw [hitems]
  have hfull' : rest.length + 1 = s.maxItems := by
    rw [hitems] at hfull
    simpa using hfull
  have hc : s.maxItems < rest.length + 1 + 1 := by omega
  simp [List.length_append, hc]

theorem Memory.push_maxItems (s : MemoryState) (it : MemoryItem) :
    (Memory.push s it).1.maxItems = s.maxItems := by
  unfold Memory.push
  split <;> simp_all

theorem Memory.push_enableEvents (s : MemoryState) (it : MemoryItem) :
    (Memory.push s it).1.enableEvents = s.enableEvents := by
  unfold Memory.push
  split <;> simp_all

theorem Memory.push_len_le {s : MemoryState} {it : MemoryItem}
    (h : s.items.length ≤ s.maxItems) :
    (Memory.push s it).1.items.length ≤ s.maxItems := by
  by_cases hroom : s.items.length + 1 ≤ s.maxItems
  · rw [Memory.push_no_evict hroom]
    simp only [List.length_append, List.length_cons, List.length_nil]
    omega
  · have hfull : s.items.length = s.maxItems := by omega
    cases hitems : s.items with
    | nil =>
      have hmax : s.maxItems = 0 := by
        rw [hitems] at hfull
        simpa using hfull.symm
      unfold Memory.push
      rw [hitems]
      simp [hmax]
    | cons first rest =>
      rw [Memory.push_evict hitems hfull]
      have : (first :: rest).length = s.maxItems := hitems ▸ hfull
      simp only [List.length_cons] at this
      simp only [List.length_append, List.length_cons, List.length_nil]
      omega

theorem Memory.push_getLast {s : MemoryState} {it : MemoryItem}
    (hmax : 1 ≤ s.maxItems) (hinv : s.items.length ≤ s.maxItems) :
    (Memory.push s it).1.items.getLast? = some it := by
  by_cases hroom : s.items.length + 1 ≤ s.maxItems
  · rw [Memory.push_no_evict hroom]
    exact List.getLast?_concat s.items
  · have hfull : s.items.length = s.maxItems := by omega
    cases hitems : s.items with
    | nil =>
      rw [hitems] at hfull
      simp at hfull
      omega
    | cons first rest =>
      rw [Memory.push_evict hitems hfull]
      exact List.getLast?_concat rest

theorem Memory.pop_items (s : MemoryState) :
    (Memory.pop s).1.items = s.items.dropLast := rfl

theorem Memory.pop_maxItems (s : MemoryState) :
    (Memory.pop s).1.maxItems = s.maxItems := rfl

theorem Memory.pushMany_cons (s : MemoryState) (a : MemoryItem) (t : List MemoryItem) :
    Memory.pushMany s (a :: t) = Memory.pushMany (Memory.push s a).1 t := rfl

theorem Memory.pushMany_le {s : MemoryState} (its : List MemoryItem)
    (h : s.items.length ≤ s.maxItems) :
    (Memory.pushMany s its).items.length ≤ (Memory.pushMany s its).maxItems := by
  induction its generalizing s with
  | nil => simpa [Memory.pushMany]
  | cons a t ih =>
    rw [Memory.pushMany_cons]
    apply ih
    rw [Memory.push_maxItems]
    exact Memory.push_len_le h

/-! ## Lemmas: the Switch loop -/

theorem switchIterate_ok {p : SwitchProps} {ai : SwitchAI} {exec : SmithExecution}
    {mem : MemoryState} {ns resp ar : String}
    (hnc : exec.completed = false)
    (hns : ai.nextStep (exec.iterations + 1) = .ok ns)
    (hw : ai.worker (exec.iterations + 1) = .ok resp)
    (ha : ai.analysis (exec.iterations + 1) = .ok ar) :
    switchIterate p ai exec mem =
      ({ exec with
          iterations := exec.iterations + 1,
          messages := exec.messages ++
            [⟨.assistant, "Planning: " ++ ns⟩, ⟨.assistant, resp⟩],
          completed := decide (Switch.classify ar ≠ .next_task) },
        (Memory.pop (Memory.push (Memory.push mem (mkItem ⟨.assistant, resp⟩)).1
            (mkItem ⟨.user, SimpleTemplateEngine.render
              p.templateInstructions.resultAnalysis.prompt
              (Switch.analysisVars p (exec.iterations + 1))⟩)).1).1,
        none) := by
  unfold switchIterate
  simp only [hns, hw, ha]
  cases hc : Switch.classify ar <;> simp [hc, hnc]

theorem switchIterate_err_nextStep {p : SwitchProps} {ai : SwitchAI} {exec : SmithExecution}
    {mem : MemoryState} {e : String}
    (hns : ai.nextStep (exec.iterations + 1) = .error e) :
    switchIterate p ai exec mem =
      ({ exec with iterations := exec.iterations + 1 }, mem, some e) := by
  unfold switchIterate
  simp only [hns]

theorem switchLoop_stopped {p : SwitchProps} {ai : SwitchAI} {exec : SmithExecution}
    {mem : MemoryState} (fuel : Nat) (hc : exec.completed = true) :
    switchLoop p ai fuel exec mem = (exec, mem, none) := by
  cases fuel with
  | zero => rfl
  | succ f => simp [switchLoop, hc]

/-- Net effect of the Switch iteration on memory, as three concrete
state operations: push the worker reply, push the analysis prompt, pop. -/
theorem switchIterate_mem_shape {resp prompt : String} {mem : MemoryState}
    (hroom : mem.items.length + 2 ≤ mem.maxItems) :
    (Memory.pop (Memory.push (Memory.push mem (mkItem ⟨.assistant, resp⟩)).1
        (mkItem ⟨.user, prompt⟩)).1).1.items =
      mem.items ++ [mkItem ⟨.assistant, resp⟩] := by
  have h1 : mem.items.length + 1 ≤ mem.maxItems := by omega
  rw [Memory.push_no_evict h1]
  have h2 : (mem.items ++ [mkItem (⟨.assistant, resp⟩ : ChatMessage)]).length + 1 ≤ mem.maxItems := by
    simp only [List.length_append, List.length_cons, List.length_nil]
    omega
  rw [Memory.pop_items]
  rw [Memory.push_no_evict h2]
  simp

/-- The memory returned by one iteration keeps `maxItems` and the
length invariant (any outcome, including a mid-iteration throw). -/
theorem switchIterate_mem_inv (p : SwitchProps) (ai : SwitchAI) (exec : SmithExecution)
    (mem : MemoryState) :
    (switchIterate p ai exec mem).2.1.maxItems = mem.maxItems ∧
      (mem.items.length ≤ mem.maxItems →
        (switchIterate p ai exec mem).2.1.items.length ≤ mem.maxItems) := by
  unfold switchIterate
  rcases hns : ai.nextStep (exec.iterations + 1) with e | ns
  · simp [hns]
  simp only [hns]
  rcases hw : ai.worker (exec.iterations + 1) with e | resp
  · simp [hw]
  simp only [hw]
  have hmax1 := Memory.push_maxItems mem (mkItem ⟨.assistant, resp⟩)
  set mem1 := (Memory.push mem (mkItem ⟨.assistant, resp⟩)).1 with hmem1
  have hmax2 := Memory.push_maxItems mem1
    (mkItem ⟨.user, SimpleTemplateEngine.render
      p.templateInstructions.resultAnalysis.prompt
      (Switch.analysisVars p (exec.iterations + 1))⟩)
  set mem2 := (Memory.push mem1
    (mkItem ⟨.user, SimpleTemplateEngine.render
      p.templateInstructions.resultAnalysis.prompt
      (Switch.analysisVars p (exec.iterations + 1))⟩)).1 with hmem2
  have hlen2 : mem.items.length ≤ mem.maxItems → mem2.items.length ≤ mem.maxItems := by
    intro h
    have h1 : mem1.items.length ≤ mem.maxItems := Memory.push_len_le h
    have h1' : mem1.items.length ≤ mem1.maxItems := by rw [hmax1]; exact h1
    have h2 : mem2.items.length ≤ mem1.maxItems := Memory.push_len_le h1'
    rw [hmax1] at h2
    exact h2
  rcases ha : ai.analysis (exec.iterations + 1) with e | ar
  · simp only [ha]
    exact ⟨by rw [hmax2, hmax1], hlen2⟩
  simp only [ha]
  have hmax3 := Memory.pop_maxItems mem2
  have hlen3 : mem.items.length ≤ mem.maxItems →
      (Memory.pop mem2).1.items.length ≤ mem.maxItems := by
    intro h
    rw [Memory.pop_items]
    calc mem2.items.dropLast.length ≤ mem2.items.length := by
          rw [List.length_dropLast]; omega
      _ ≤ mem.maxItems := hlen2 h
  cases hcl : Switch.classify ar <;> simp only [hcl] <;>
    exact ⟨by rw [hmax3, hmax2, hmax1], hlen3⟩

/-- With every collaborator call succeeding and every analysis reply
classifying as `next_task`, the loop consumes all its fuel:
`iterations` grows by `fuel`, `completed` stays false, `result` and
`goal` are untouched, the memory invariant is preserved. -/
theorem switchLoop_all_continue {p : SwitchProps} {ai : SwitchAI}
    (hns : ∀ j, ∃ s, ai.nextStep j = .ok s)
    (hw : ∀ j, ∃ s, ai.worker j = .ok s)
    (ha : ∀ j, ∃ r, ai.analysis j = .ok r ∧ Switch.classify r = .next_task) :
    ∀ fuel exec mem, exec.completed = false →
      ∃ exec' mem', switchLoop p ai fuel exec mem = (exec', mem', none) ∧
        exec'.completed = false ∧ exec'.iterations = exec.iterations + fuel ∧
        exec'.result = exec.result ∧ exec'.goal = exec.goal ∧
        mem'.maxItems = mem.maxItems ∧
        (mem.items.length ≤ mem.maxItems → mem'.items.length ≤ mem'.maxItems) := by
  intro fuel
  induction fuel with
  | zero =>
    intro exec mem hnc
    exact ⟨exec, mem, rfl, hnc, rfl, rfl, rfl, rfl, fun h => h⟩
  | succ f ih =>
    intro exec mem hnc
    obtain ⟨ns, hns1⟩ := hns (exec.iterations + 1)
    obtain ⟨resp, hw1⟩ := hw (exec.iterations + 1)
    obtain ⟨ar, ha1, hcl⟩ := ha (exec.iterations + 1)
    have hit := @switchIterate_ok p ai exec mem ns resp ar hnc hns1 hw1 ha1
    have hmeminv := switchIterate_mem_inv p ai exec mem
    rw [hit] at hmeminv
    simp only [hcl] at hit
    set exec1 : SmithExecution :=
      { exec with
          iterations := exec.iterations + 1,
          messages := exec.messages ++
            [⟨.assistant, "Planning: " ++ ns⟩, ⟨.assistant, resp⟩],
          completed := decide (Classification.next_task ≠ Classification.next_task) }
      with hexec1
    set mem3 : MemoryState :=
      (Memory.pop (Memory.push (Memory.push mem (mkItem ⟨.assistant, resp⟩)).1
        (mkItem ⟨.user, SimpleTemplateEngine.render
          p.templateInstructions.resultAnalysis.prompt
          (Switch.analysisVars p (exec.iterations + 1))⟩)).1).1 with hmem3
    have hnc1 : exec1.completed = false := by simp [hexec1]
    obtain ⟨exec', mem', heq, hc', hit', hres, hgoal, hmax, hlen⟩ := ih exec1 mem3 hnc1
    refine ⟨exec', mem', ?_, hc', ?_, ?_, ?_, ?_, ?_⟩
    · have hstep : switchLoop p ai (f + 1) exec mem = switchLoop p ai f exec1 mem3 := by
        simp only [switchLoop, hnc, Bool.false_eq_true, if_false, hit]
      rw [hstep, heq]
    · simp only [hit', hexec1]
      omega
    · rw [hres]
    · rw [hgoal]
    · rw [hmax]
      simpa using hmeminv.1
    · intro h
      apply hlen
      rw [hmeminv.1]
      exact hmeminv.2 h

/-- When the planner call of iteration `k` throws while every earlier
iteration succeeded and continued, the loop returns immediately with
that error after `k` loop-body entries. -/
theorem switchLoop_err_at {p : SwitchProps} {ai : SwitchAI} {k : Nat} {e : String}
    (hns : ∀ j, j < k → ∃ s, ai.nextStep j = .ok s)
    (hw : ∀ j, j < k → ∃ s, ai.worker j = .ok s)
    (ha : ∀ j, j < k → ∃ r, ai.analysis j = .ok r ∧ Switch.classify r = .next_task)
    (hk : ai.nextStep k = .error e) :
    ∀ fuel exec mem, exec.completed = false → exec.iterations < k →
      k ≤ exec.iterations + fuel →
      ∃ exec' mem', switchLoop p ai fuel exec mem = (exec', mem', some e) ∧
        exec'.completed = false ∧ exec'.iterations = k ∧
        exec'.result = exec.result ∧
        mem'.maxItems = mem.maxItems ∧
        (mem.items.length ≤ mem.maxItems → mem'.items.length ≤ mem'.maxItems) := by
  intro fuel
  induction fuel with
  | zero =>
    intro exec mem hnc hlt hle
    omega
  | succ f ih =>
    intro exec mem hnc hlt hle
    by_cases hhit : exec.iterations + 1 = k
    · have hkerr : ai.nextStep (exec.iterations + 1) = .error e := by rw [hhit]; exact hk
      have hit := @switchIterate_err_nextStep p ai exec mem e hkerr
      refine ⟨{ exec with iterations := exec.iterations + 1 }, mem, ?_, hnc, hhit, rfl, rfl,
        fun h => h⟩
      simp only [switchLoop, hnc, Bool.false_eq_true, if_false, hit]
    · have hlt1 : exec.iterations + 1 < k := by omega
      obtain ⟨ns, hns1⟩ := hns (exec.iterations + 1) hlt1
      obtain ⟨resp, hw1⟩ := hw (exec.iterations + 1) hlt1
      obtain ⟨ar, ha1, hcl⟩ := ha (exec.iterations + 1) hlt1
      have hit := @switchIterate_ok p ai exec mem ns resp ar hnc hns1 hw1 ha1
      have hmeminv := switchIterate_mem_inv p ai exec mem
      rw [hit] at hmeminv
      simp only [hcl] at hit
      set exec1 : SmithExecution :=
        { exec with
            iterations := exec.iterations + 1,
            messages := exec.messages ++
              [⟨.assistant, "Planning: " ++ ns⟩, ⟨.assistant, resp⟩],
            completed := decide (Classification.next_task ≠ Classification.next_task) }
        with hexec1
      set mem3 : MemoryState :=
        (Memory.pop (Memory.push (Memory.push mem (mkItem ⟨.assistant, resp⟩)).1
          (mkItem ⟨.user, SimpleTemplateEngine.render
            p.templateInstructions.resultAnalysis.prompt
            (Switch.analysisVars p (exec.iterations + 1))⟩)).1).1 with hmem3
      have hnc1 : exec1.completed = false := by simp [hexec1]
      have hlt1' : exec1.iterations < k := by simp only [hexec1]; omega
      have hle1 : k ≤ exec1.iterations + f := by simp only [hexec1]; omega
      obtain ⟨exec', mem', heq, hc', hit', hres, hmax, hlen⟩ := ih exec1 mem3 hnc1 hlt1' hle1
      refine ⟨exec', mem', ?_, hc', hit', hres, ?_, ?_⟩
      · have hstep : switchLoop p ai (f + 1) exec mem = switchLoop p ai f exec1 mem3 := by
          simp only [switchLoop, hnc, Bool.false_eq_true, if_false, hit]
        rw [hstep, heq]
      · rw [hmax]
        simpa using hmeminv.1
      · intro h
        apply hlen
        rw [hmeminv.1]
        exact hmeminv.2 h

/-! ## Lemmas: the Smith loop -/

theorem smithIterate_ok {p : SmithProps} {ai : SmithAI} {exec : SmithExecution}
    {sm wm : List ChatMessage} {wp resp ar : String}
    (hnc : exec.completed = false)
    (hpg : ai.promptGen (exec.iterations + 1) = .ok wp)
    (hw : ai.worker (exec.iterations + 1) = .ok resp)
    (ha : ai.analysis (exec.iterations + 1) = .ok ar) :
    smithIterate p ai exec sm wm =
      ({ exec with
          iterations := exec.iterations + 1,
          messages := exec.messages ++ [⟨.user, wp⟩, ⟨.assistant, resp⟩],
          completed := decide (Smith.analyzeClassify ar = .completed) },
        sm ++ [⟨.user, wp⟩, ⟨.assistant, resp⟩],
        wm ++ [⟨.user, wp⟩, ⟨.assistant, resp⟩],
        none) := by
  unfold smithIterate
  simp only [hpg, hw, ha, List.dropLast_concat]
  cases hc : Smith.analyzeClassify ar <;> simp_all [List.dropLast_concat, List.append_assoc]

/-! ## Lemmas: Switch.run assembly -/

theorem run_of_body_none {p : SwitchProps} {ai : SwitchAI} {task : String}
    {exec : SmithExecution} {mem : MemoryState}
    (h : Switch.runBody p ai task = (exec, mem, none)) :
    Switch.run p ai task = .ok (exec, mem) := by
  unfold Switch.run
  rw [h]

theorem run_of_body_err {p : SwitchProps} {ai : SwitchAI} {task : String}
    {exec : SmithExecution} {mem : MemoryState} {e : String}
    (h : Switch.runBody p ai task = (exec, mem, some e)) :
    Switch.run p ai task = .ok (exec, (Memory.push mem (mkItem ⟨.user,
      "Error occurred: " ++ e ++ ". " ++ p.identity.errorRecovery.fallbackStrategy⟩)).1) := by
  unfold Switch.run
  rw [h]

theorem runBody_loop_none_not_completed {p : SwitchProps} {ai : SwitchAI} {task b : String}
    {exec : SmithExecution} {mem : MemoryState}
    (hb : ai.breakdown = .ok b)
    (hloop : switchLoop p ai p.maxIterations (Switch.execInit task)
      (Switch.memStart p task b) = (exec, mem, none))
    (hnc : exec.completed = false) :
    Switch.runBody p ai task = (exec, mem, none) := by
  unfold Switch.runBody
  simp only [hb]
  rw [hloop]
  simp [hnc]

theorem runBody_loop_none_completed {p : SwitchProps} {ai : SwitchAI} {task b rep : String}
    {exec : SmithExecution} {mem : MemoryState}
    (hb : ai.breakdown = .ok b)
    (hloop : switchLoop p ai p.maxIterations (Switch.execInit task)
      (Switch.memStart p task b) = (exec, mem, none))
    (hc : exec.completed = true)
    (hrep : ai.finalReport = .ok rep) :
    Switch.runBody p ai task = ({ exec with result := some rep }, mem, none) := by
  unfold Switch.runBody
  simp only [hb]
  rw [hloop]
  simp [hc, hrep]

theorem runBody_loop_err {p : SwitchProps} {ai : SwitchAI} {task b e : String}
    {exec : SmithExecution} {mem : MemoryState}
    (hb : ai.breakdown = .ok b)
    (hloop : switchLoop p ai p.maxIterations (Switch.execInit task)
      (Switch.memStart p task b) = (exec, mem, some e)) :
    Switch.runBody p ai task = (exec, mem, some e) := by
  unfold Switch.runBody
  simp only [hb]
  rw [hloop]

theorem memStart_maxItems (p : SwitchProps) (task b : String) :
    (Switch.memStart p task b).maxItems = 100 := by
  unfold Switch.memStart Switch.memSys
  rw [Memory.push_maxItems, Memory.push_maxItems, Memory.push_maxItems]
  rfl

theorem memStart_items (p : SwitchProps) (task b : String) :
    (Switch.memStart p task b).items =
      [mkItem ⟨.system, p.identity.systemPrompt⟩,
       mkItem ⟨.user, Switch.taskPrompt p task⟩,
       mkItem ⟨.assistant, b⟩] := by
  simp [Switch.memStart, Switch.memSys, Memory.push, Memory.create]

theorem memStart_len (p : SwitchProps) (task b : String) :
    (Switch.memStart p task b).items.length = 3 := by
  rw [memStart_items]
  rfl

theorem Memory.pushMany_maxItems (s : MemoryState) (its : List MemoryItem) :
    (Memory.pushMany s its).maxItems = s.maxItems := by
  induction its generalizing s with
  | nil => rfl
  | cons a t ih =>
    rw [Memory.pushMany_cons, ih, Memory.push_maxItems]

/-! ## Lemmas: throws from any collaborator call site, both variants -/

theorem switchIterate_err_any {p : SwitchProps} {ai : SwitchAI} {exec : SmithExecution}
    {mem : MemoryState} {e : String}
    (hnc : exec.completed = false)
    (hsite : ai.nextStep (exec.iterations + 1) = .error e ∨
      (∃ ns, ai.nextStep (exec.iterations + 1) = .ok ns ∧
        ai.worker (exec.iterations + 1) = .error e) ∨
      (∃ ns resp, ai.nextStep (exec.iterations + 1) = .ok ns ∧
        ai.worker (exec.iterations + 1) = .ok resp ∧
        ai.analysis (exec.iterations + 1) = .error e)) :
    ∃ exec' mem', switchIterate p ai exec mem = (exec', mem', some e) ∧
      exec'.iterations = exec.iterations + 1 ∧ exec'.completed = false ∧
      exec'.result = exec.result := by
  rcases hsite with h1 | ⟨ns, h1, h2⟩ | ⟨ns, resp, h1, h2, h3⟩
  · unfold switchIterate
    simp only [h1]
    exact ⟨_, _, rfl, rfl, hnc, rfl⟩
  · unfold switchIterate
    simp only [h1, h2]
    exact ⟨_, _, rfl, rfl, hnc, rfl⟩
  · unfold switchIterate
    simp only [h1, h2, h3]
    exact ⟨_, _, rfl, rfl, hnc, rfl⟩

theorem switchLoop_err_any {p : SwitchProps} {ai : SwitchAI} {k : Nat} {e : String}
    (hns : ∀ j, j < k → ∃ s, ai.nextStep j = .ok s)
    (hw : ∀ j, j < k → ∃ s, ai.worker j = .ok s)
    (ha : ∀ j, j < k → ∃ r, ai.analysis j = .ok r ∧ Switch.classify r = .next_task)
    (hk : ai.nextStep k = .error e ∨
      (∃ ns, ai.nextStep k = .ok ns ∧ ai.worker k = .error e) ∨
      (∃ ns resp, ai.nextStep k = .ok ns ∧ ai.worker k = .ok resp ∧
        ai.analysis k = .error e)) :
    ∀ fuel exec mem, exec.completed = false → exec.iterations < k →
      k ≤ exec.iterations + fuel →
      ∃ exec' mem', switchLoop p ai fuel exec mem = (exec', mem', some e) ∧
        exec'.completed = false ∧ exec'.iterations = k ∧
        exec'.result = exec.result ∧
        mem'.maxItems = mem.maxItems ∧
        (mem.items.length ≤ mem.maxItems → mem'.items.length ≤ mem'.maxItems) := by
  intro fuel
  induction fuel with
  | zero =>
    intro exec mem hnc hlt hle
    omega
  | succ f ih =>
    intro exec mem hnc hlt hle
    by_cases hhit : exec.iterations + 1 = k
    · have hsite' : ai.nextStep (exec.iterations + 1) = .error e ∨
          (∃ ns, ai.nextStep (exec.iterations + 1) = .ok ns ∧
            ai.worker (exec.iterations + 1) = .error e) ∨
          (∃ ns resp, ai.nextStep (exec.iterations + 1) = .ok ns ∧
            ai.worker (exec.iterations + 1) = .ok resp ∧
            ai.analysis (exec.iterations + 1) = .error e) := by
        rw [hhit]
        exact hk
      obtain ⟨exec1, mem1, hit, hi1, hc1, hr1⟩ := @switchIterate_err_any p ai exec mem e hnc hsite'
      have hmem := switchIterate_mem_inv p ai exec mem
      rw [hit] at hmem
      have hmax1 : mem1.maxItems = mem.maxItems := hmem.1
      refine ⟨exec1, mem1, ?_, hc1, by rw [hi1]; exact hhit, hr1, hmax1, ?_⟩
      · simp only [switchLoop, hnc, Bool.false_eq_true, if_false, hit]
      · intro h
        rw [hmax1]
        exact hmem.2 h
    · have hlt1 : exec.iterations + 1 < k := by omega
      obtain ⟨ns, hns1⟩ := hns (exec.iterations + 1) hlt1
      obtain ⟨resp, hw1⟩ := hw (exec.iterations + 1) hlt1
      obtain ⟨ar, ha1, hcl⟩ := ha (exec.iterations + 1) hlt1
      have hit := @switchIterate_ok p ai exec mem ns resp ar hnc hns1 hw1 ha1
      have hmeminv := switchIterate_mem_inv p ai exec mem
      rw [hit] at hmeminv
      simp only [hcl] at hit
      set exec1 : SmithExecution :=
        { exec with
            iterations := exec.iterations + 1,
            messages := exec.messages ++
              [⟨.assistant, "Planning: " ++ ns⟩, ⟨.assistant, resp⟩],
            completed := decide (Classification.next_task ≠ Classification.next_task) }
        with hexec1
      set mem3 : MemoryState :=
        (Memory.pop (Memory.push (Memory.push mem (mkItem ⟨.assistant, resp⟩)).1
          (mkItem ⟨.user, SimpleTemplateEngine.render
            p.templateInstructions.resultAnalysis.prompt
            (Switch.analysisVars p (exec.iterations + 1))⟩)).1).1 with hmem3
      have hnc1 : exec1.completed = false := by simp [hexec1]
      have hlt1' : exec1.iterations < k := by simp only [hexec1]; omega
      have hle1 : k ≤ exec1.iterations + f := by simp only [hexec1]; omega
      obtain ⟨exec', mem', heq, hc', hit', hres, hmax, hlen⟩ := ih exec1 mem3 hnc1 hlt1' hle1
      refine ⟨exec', mem', ?_, hc', hit', hres, ?_, ?_⟩
      · have hstep : switchLoop p ai (f + 1) exec mem = switchLoop p ai f exec1 mem3 := by
          simp only [switchLoop, hnc, Bool.false_eq_true, if_false, hit]
        rw [hstep, heq]
      · rw [hmax]
        simpa using hmeminv.1
      · intro h
        apply hlen
        rw [hmeminv.1]
        exact hmeminv.2 h

theorem smithIterate_err_any {p : SmithProps} {ai : SmithAI} {exec : SmithExecution}
    {sm wm : List ChatMessage} {e : String}
    (hnc : exec.completed = false)
    (hsite : ai.promptGen (exec.iterations + 1) = .error e ∨
      (∃ wp, ai.promptGen (exec.iterations + 1) = .ok wp ∧
        ai.worker (exec.iterations + 1) = .error e) ∨
      (∃ wp resp, ai.promptGen (exec.iterations + 1) = .ok wp ∧
        ai.worker (exec.iterations + 1) = .ok resp ∧
        ai.analysis (exec.iterations + 1) = .error e)) :
    ∃ exec' sm' wm', smithIterate p ai exec sm wm = (exec', sm', wm', some e) ∧
      exec'.iterations = exec.iterations + 1 ∧ exec'.completed = false ∧
      exec'.result = exec.result := by
  rcases hsite with h1 | ⟨wp, h1, h2⟩ | ⟨wp, resp, h1, h2, h3⟩
  · unfold smithIterate
    simp only [h1]
    exact ⟨_, _, _, rfl, rfl, hnc, rfl⟩
  · unfold smithIterate
    simp only [h1, h2]
    exact ⟨_, _, _, rfl, rfl, hnc, rfl⟩
  · unfold smithIterate
    simp only [h1, h2, h3]
    exact ⟨_, _, _, rfl, rfl, hnc, rfl⟩

theorem smithLoop_stopped {p : SmithProps} {ai : SmithAI} {exec : SmithExecution}
    {sm wm : List ChatMessage} (fuel : Nat) (hc : exec.completed = true) :
    smithLoop p ai fuel exec sm wm = (exec, sm, wm, none) := by
  cases fuel with
  | zero => rfl
  | succ f => simp [smithLoop, hc]

theorem smithLoop_err_any {p : SmithProps} {ai : SmithAI} {k : Nat} {e : String}
    (hpg : ∀ j, j < k → ∃ s, ai.promptGen j = .ok s)
    (hw : ∀ j, j < k → ∃ s, ai.worker j = .ok s)
    (ha : ∀ j, j < k → ∃ r, ai.analysis j = .ok r ∧ Smith.analyzeClassify r = .next_task)
    (hk : ai.promptGen k = .error e ∨
      (∃ wp, ai.promptGen k = .ok wp ∧ ai.worker k = .error e) ∨
      (∃ wp resp, ai.promptGen k = .ok wp ∧ ai.worker k = .ok resp ∧
        ai.analysis k = .error e)) :
    ∀ fuel exec sm wm, exec.completed = false → exec.iterations < k →
      k ≤ exec.iterations + fuel →
      ∃ exec' sm' wm', smithLoop p ai fuel exec sm wm = (exec', sm', wm', some e) ∧
        exec'.completed = false ∧ exec'.iterations = k ∧
        exec'.result = exec.result := by
  intro fuel
  induction fuel with
  | zero =>
    intro exec sm wm hnc hlt hle
    omega
  | succ f ih =>
    intro exec sm wm hnc hlt hle
    by_cases hhit : exec.iterations + 1 = k
    · have hsite' : ai.promptGen (exec.iterations + 1) = .error e ∨
          (∃ wp, ai.promptGen (exec.iterations + 1) = .ok wp ∧
            ai.worker (exec.iterations + 1) = .error e) ∨
          (∃ wp resp, ai.promptGen (exec.iterations + 1) = .ok wp ∧
            ai.worker (exec.iterations + 1) = .ok resp ∧
            ai.analysis (exec.iterations + 1) = .error e) := by
        rw [hhit]
        exact hk
      obtain ⟨exec1, sm1, wm1, hit, hi1, hc1, hr1⟩ := @smithIterate_err_any p ai exec sm wm e hnc hsite'
      refine ⟨exec1, sm1, wm1, ?_, hc1, by rw [hi1]; exact hhit, hr1⟩
      simp only [smithLoop, hnc, Bool.false_eq_true, if_false, hit]
    · have hlt1 : exec.iterations + 1 < k := by omega
      obtain ⟨wp, hpg1⟩ := hpg (exec.iterations + 1) hlt1
      obtain ⟨resp, hw1⟩ := hw (exec.iterations + 1) hlt1
      obtain ⟨ar, ha1, hcl⟩ := ha (exec.iterations + 1) hlt1
      have hit := @smithIterate_ok p ai exec sm wm wp resp ar hnc hpg1 hw1 ha1
      simp only [hcl] at hit
      set exec1 : SmithExecution :=
        { exec with
            iterations := exec.iterations + 1,
            messages := exec.messages ++ [⟨.user, wp⟩, ⟨.assistant, resp⟩],
            completed := decide (Classification.next_task = Classification.completed) }
        with hexec1
      have hnc1 : exec1.completed = false := by simp [hexec1]
      have hlt1' : exec1.iterations < k := by simp only [hexec1]; omega
      have hle1 : k ≤ exec1.iterations + f := by simp only [hexec1]; omega
      obtain ⟨exec', sm', wm', heq, hc', hit', hres⟩ :=
        ih exec1 (sm ++ [⟨.user, wp⟩, ⟨.assistant, resp⟩])
          (wm ++ [⟨.user, wp⟩, ⟨.assistant, resp⟩]) hnc1 hlt1' hle1
      refine ⟨exec', sm', wm', ?_, hc', hit', hres⟩
      have hstep : smithLoop p ai (f + 1) exec sm wm =
          smithLoop p ai f exec1 (sm ++ [⟨.user, wp⟩, ⟨.assistant, resp⟩])
            (wm ++ [⟨.user, wp⟩, ⟨.assistant, resp⟩]) := by
        simp only [smithLoop, hnc, Bool.false_eq_true, if_false, hit]
      rw [hstep, heq]

theorem smith_runBody_loop_err {p : SmithProps} {ai : SmithAI} {task b e : String}
    {exec : SmithExecution} {sm wm : List ChatMessage}
    (hb : ai.breakdown = .ok b)
    (hloop : smithLoop p ai p.maxIterations (Smith.execInit task)
      (Smith.smStart p task b) (Smith.wmInit p) = (exec, sm, wm, some e)) :
    Smith.runBody p ai task = (exec, sm, wm, some e) := by
  unfold Smith.runBody
  simp only [hb]
  rw [hloop]

theorem smith_exec_of_body_err {p : SmithProps} {ai : SmithAI} {task e : String}
    {exec : SmithExecution} {sm wm : List ChatMessage}
    (h : Smith.runBody p ai task = (exec, sm, wm, some e)) :
    Smith.executeMission p ai task = .ok (exec, sm ++ [⟨.user,
      "Error occurred: " ++ e ++ ". " ++ p.identity.errorRecovery.fallbackStrategy⟩], wm) := by
  unfold Smith.executeMission
  rw [h]

/-! ## The claims -/

/-- C8: `render` replaces each `{{name}}` placeholder whose name the
bag defines with the value's string form, leaves placeholders with
undefined names untouched (no error, no blank substitution), and trims
the result; in particular `render({user:"Hello {{name}}"}, {})` returns
`"Hello {{name}}"`. -/
theorem render_unresolved_policy :
    (∀ (pre n post : List Char) (sys : String) (vars : String → Option String) (v : String),
      '{' ∉ pre → '{' ∉ post → n ≠ [] → (∀ c ∈ n, wordChar c = true) →
      vars (String.mk n) = some v →
      SimpleTemplateEngine.render
          ⟨String.mk (pre ++ '{' :: '{' :: (n ++ '}' :: '}' :: post)), sys⟩ vars =
        String.mk (trimChars (pre ++ v.data ++ post))) ∧
    (∀ (pre n post : List Char) (sys : String) (vars : String → Option String),
      '{' ∉ pre → '{' ∉ post → n ≠ [] → (∀ c ∈ n, wordChar c = true) →
      vars (String.mk n) = none →
      SimpleTemplateEngine.render
          ⟨String.mk (pre ++ '{' :: '{' :: (n ++ '}' :: '}' :: post)), sys⟩ vars =
        String.mk (trimChars (pre ++ '{' :: '{' :: (n ++ '}' :: '}' :: post)))) ∧
    SimpleTemplateEngine.render ⟨"Hello {{name}}", ""⟩ (fun _ => none) = "Hello {{name}}" ∧
    SimpleTemplateEngine.render ⟨" Task: {{task}} ", ""⟩ (bagLookup [("task", "scan files")]) =
      "Task: scan files" := by
  refine ⟨?_, ?_, ?_, ?_⟩
  · intro pre n post sys vars v hpre hpost hn hnw hv
    unfold SimpleTemplateEngine.render
    have hdata : (String.mk (pre ++ '{' :: '{' :: (n ++ '}' :: '}' :: post))).data =
        pre ++ '{' :: '{' :: (n ++ '}' :: '}' :: post) := rfl
    rw [hdata, renderChars_app_clean hpre, renderChars_subst hn hnw]
    simp only [hv]
    rw [renderChars_clean hpost]
    simp [List.append_assoc]
  · intro pre n post sys vars hpre hpost hn hnw hv
    unfold SimpleTemplateEngine.render
    have hdata : (String.mk (pre ++ '{' :: '{' :: (n ++ '}' :: '}' :: post))).data =
        pre ++ '{' :: '{' :: (n ++ '}' :: '}' :: post) := rfl
    rw [hdata, renderChars_app_clean hpre, renderChars_subst hn hnw]
    simp only [hv]
    rw [renderChars_clean hpost]
  · have hsplit : "Hello {{name}}".data =
        "Hello ".data ++ '{' :: '{' :: ("name".data ++ '}' :: '}' :: []) := by decide
    unfold SimpleTemplateEngine.render
    rw [hsplit, renderChars_app_clean (by decide),
      renderChars_subst (by decide) (by decide)]
    simp only [renderChars_nil]
    decide
  · have hsplit : " Task: {{task}} ".data =
        " Task: ".data ++ '{' :: '{' :: ("task".data ++ '}' :: '}' :: " ".data) := by decide
    unfold SimpleTemplateEngine.render
    rw [hsplit, renderChars_app_clean (by decide),
      renderChars_subst (by decide) (by decide)]
    have hlook : bagLookup [("task", "scan files")] (String.mk "task".data) =
        some "scan files" := by decide
    rw [hlook, renderChars_clean (by decide)]
    decide

/-- Witness for C8: the substitution conjunct applied at a concrete
template, bag and value. -/
theorem render_unresolved_policy_witness :
    ('{' ∉ "Task: ".data) ∧ ("task".data ≠ []) ∧
    SimpleTemplateEngine.render ⟨"Task: {{task}}", ""⟩ (bagLookup [("task", "scan files")]) =
      "Task: scan files" := by
  refine ⟨by decide, by decide, ?_⟩
  have h := render_unresolved_policy.1 "Task: ".data "task".data [] ""
    (bagLookup [("task", "scan files")]) "scan files" (by decide) (by decide) (by decide)
    (by decide) (by decide)
  have hst : ("Task: {{task}}" : String) =
      String.mk ("Task: ".data ++ '{' :: '{' :: ("task".data ++ '}' :: '}' :: [])) := by decide
  rw [hst, h]
  decide

/-- C5: after any sequence of pushes on a created `Memory` instance,
`list().length ≤ maxItems`; a push onto a full buffer evicts exactly
the oldest surviving item (strict FIFO) and, with events enabled,
emits exactly one eviction notification then one push notification. -/
theorem memory_capacity_invariant :
    (∀ (maxItems? : Option Nat) (enableEvents : Bool) (its : List MemoryItem) (k : Nat),
      (Memory.list (Memory.pushMany (Memory.create maxItems? enableEvents)
          (its.take k))).length ≤
        (Memory.create maxItems? enableEvents).maxItems) ∧
    (∀ (s : MemoryState) (it first : MemoryItem) (rest : List MemoryItem),
      s.items = first :: rest → s.items.length = s.maxItems → s.enableEvents = true →
      (Memory.push s it).1.items = rest ++ [it] ∧
      (Memory.push s it).2 = [MemoryEvent.evicted first "max_items_exceeded",
        MemoryEvent.pushEv it (rest.length + 1)]) := by
  constructor
  · intro maxItems? enableEvents its k
    have h0 : (Memory.create maxItems? enableEvents).items.length ≤
        (Memory.create maxItems? enableEvents).maxItems := by
      simp [Memory.create]
    have hle := Memory.pushMany_le (its.take k) h0
    have hmax := Memory.pushMany_maxItems (Memory.create maxItems? enableEvents) (its.take k)
    unfold Memory.list
    rw [← hmax]
    exact hle
  · intro s it first rest hitems hfull hev
    have h := @Memory.push_evict s it first rest hitems hfull
    rw [h]
    simp [hev]

/-- Witness for C5: a full two-slot buffer receiving a third item. -/
theorem memory_capacity_invariant_witness :
    (Memory.push fixFullMem (fixItem 3)).1.items = [fixItem 2] ++ [fixItem 3] ∧
    (Memory.push fixFullMem (fixItem 3)).2 =
      [MemoryEvent.evicted (fixItem 1) "max_items_exceeded",
       MemoryEvent.pushEv (fixItem 3) 2] :=
  memory_capacity_invariant.2 fixFullMem (fixItem 3) (fixItem 1) [fixItem 2] rfl rfl rfl

/-- C6: the operational event log retains at most the last 10 events
(the oldest dropped, no event emitted — `addEvent` returns only the new
log); after 15 `addEvent` calls exactly the last 10 remain, and
`getEventsContext` serializes exactly the last 5 of them. -/
theorem event_log_bound :
    (∀ (log : List AgentEvent) (e : AgentEvent), (Switch.addEvent log e).length ≤ 10) ∧
    (∀ e1 e2 e3 e4 e5 e6 e7 e8 e9 e10 e11 e12 e13 e14 e15 : AgentEvent,
      List.foldl Switch.addEvent []
          [e1, e2, e3, e4, e5, e6, e7, e8, e9, e10, e11, e12, e13, e14, e15] =
        [e6, e7, e8, e9, e10, e11, e12, e13, e14, e15] ∧
      Switch.getEventsContext [e6, e7, e8, e9, e10, e11, e12, e13, e14, e15] =
        serializeEvents [e11, e12, e13, e14, e15]) := by
  constructor
  · intro log e
    unfold Switch.addEvent
    by_cases hc : (log ++ [e]).length > 10
    · simp only [hc, if_true, List.length_drop]
      omega
    · simp only [hc, if_false]
      simp only [gt_iff_lt, not_lt] at hc
      omega
  · intro e1 e2 e3 e4 e5 e6 e7 e8 e9 e10 e11 e12 e13 e14 e15
    constructor
    · simp [Switch.addEvent]
    · simp [Switch.getEventsContext]

/-- Counterexample for C7: an event whose `type` is `"ERROR"` contains
the error indicator case-insensitively, yet `hasRecentErrors` returns
`false` — the `type` field is matched case-sensitively. -/
theorem has_recent_errors_case_cex :
    Switch.hasRecentErrors [⟨"ERROR", "all good", "t0"⟩] = false ∧
    containsSubstr "error".data ("ERROR".data.map Char.toLower) = true := by
  constructor
  · decide
  · decide

/-- C7 (amended): `hasRecentErrors()` returns true iff some retained
event's `type` contains `"error"` as a case-SENSITIVE substring or its
`message` contains `"error"` case-insensitively. -/
theorem has_recent_errors_amended (log : List AgentEvent) :
    Switch.hasRecentErrors log = true ↔
      ∃ e ∈ log, containsSubstr "error".data e.type.data = true ∨
        containsSubstr "error".data (e.message.data.map Char.toLower) = true := by
  simp [Switch.hasRecentErrors, List.any_eq_true]

/-- Counterexample for C4: in the Smith variant, a reply containing
`"failed"` does not classify as failed — `analyzeResult` only tests
`"completed"` and continues otherwise. -/
theorem smith_failed_classification_cex :
    Smith.analyzeClassify "Task failed due to permissions." = Classification.next_task ∧
    Smith.analyzeClassify "Task failed due to permissions." ≠ Classification.failed := by
  constructor
  · decide
  · decide

/-- C4 (amended): the Switch variant lower-cases (and trims) the reply
and tests `"completed"` first, then `"failed"`, anything else
continuing; the Smith variant tests only `"completed"` and classifies
every other reply — including ones containing `"failed"` — as
`next_task`, never as failed. -/
theorem classification_amended :
    (∀ s : String, Switch.classify s = .completed ↔
      containsSubstr "completed".data (lowerTrim s) = true) ∧
    (∀ s : String, Switch.classify s = .failed ↔
      (containsSubstr "completed".data (lowerTrim s) = false ∧
       containsSubstr "failed".data (lowerTrim s) = true)) ∧
    (∀ s : String, Switch.classify s = .next_task ↔
      (containsSubstr "completed".data (lowerTrim s) = false ∧
       containsSubstr "failed".data (lowerTrim s) = false)) ∧
    Switch.classify "Mission Completed." = .completed ∧
    Switch.classify "Task failed due to permissions." = .failed ∧
    Switch.classify "Proceeding to next step." = .next_task ∧
    (∀ s : String, Smith.analyzeClassify s = .completed ↔
      containsSubstr "completed".data (lowerTrim s) = true) ∧
    (∀ s : String, Smith.analyzeClassify s ≠ .failed) ∧
    Smith.analyzeClassify "Mission Completed." = .completed ∧
    Smith.analyzeClassify "Proceeding to next step." = .next_task := by
  refine ⟨?_, ?_, ?_, by decide, by decide, by decide, ?_, ?_, by decide, by decide⟩
  · intro s
    unfold Switch.classify
    cases hc : containsSubstr "completed".data (lowerTrim s) <;>
      cases hf : containsSubstr "failed".data (lowerTrim s) <;> simp
  · intro s
    unfold Switch.classify
    cases hc : containsSubstr "completed".data (lowerTrim s) <;>
      cases hf : containsSubstr "failed".data (lowerTrim s) <;> simp
  · intro s
    unfold Switch.classify
    cases hc : containsSubstr "completed".data (lowerTrim s) <;>
      cases hf : containsSubstr "failed".data (lowerTrim s) <;> simp
  · intro s
    unfold Smith.analyzeClassify
    cases hc : containsSubstr "completed".data (lowerTrim s) <;> simp
  · intro s
    unfold Smith.analyzeClassify
    cases hc : containsSubstr "completed".data (lowerTrim s) <;> simp

/-- C2: with every collaborator call succeeding and no analysis reply
containing "completed" or "failed" (case-insensitively), `run` executes
the loop body exactly `maxIterations` times and returns
`completed = false`, `iterations = maxIterations`, with no final
report (`result` unset). -/
theorem bounded_termination (p : SwitchProps) (ai : SwitchAI) (task : String)
    (hbd : ∃ b, ai.breakdown = .ok b)
    (hns : ∀ j, ∃ s, ai.nextStep j = .ok s)
    (hw : ∀ j, ∃ s, ai.worker j = .ok s)
    (hok : ∀ j, ∃ r, ai.analysis j = .ok r)
    (hkw : ∀ j r, ai.analysis j = .ok r →
      containsSubstr "completed".data (r.data.map Char.toLower) = false ∧
      containsSubstr "failed".data (r.data.map Char.toLower) = false) :
    ∃ exec mem, Switch.run p ai task = .ok (exec, mem) ∧
      exec.completed = false ∧ exec.iterations = p.maxIterations ∧
      exec.result = none := by
  obtain ⟨b, hb⟩ := hbd
  have ha' : ∀ j, ∃ r, ai.analysis j = .ok r ∧ Switch.classify r = .next_task := by
    intro j
    obtain ⟨r, hr⟩ := hok j
    obtain ⟨h1, h2⟩ := hkw j r hr
    exact ⟨r, hr, classify_next_task h1 h2⟩
  obtain ⟨exec', mem', heq, hc', hit', hres, hgoal, hmax, hlen⟩ :=
    switchLoop_all_continue hns hw ha' p.maxIterations (Switch.execInit task)
      (Switch.memStart p task b) rfl
  refine ⟨exec', mem', ?_, hc', ?_, ?_⟩
  · exact run_of_body_none (runBody_loop_none_not_completed hb heq hc')
  · simpa [Switch.execInit] using hit'
  · simpa [Switch.execInit] using hres

/-- Witness for C2: concrete controller with `maxIterations = 3` and
collaborators that always succeed without completion keywords. -/
theorem bounded_termination_witness :
    ∃ exec mem, Switch.run fixSwitchProps fixAIContinue "mission" = .ok (exec, mem) ∧
      exec.completed = false ∧ exec.iterations = 3 ∧ exec.result = none := by
  have h := bounded_termination fixSwitchProps fixAIContinue "mission"
    ⟨"1. do things", rfl⟩
    (fun _ => ⟨"step", rfl⟩)
    (fun _ => ⟨"did the step", rfl⟩)
    (fun _ => ⟨"keep going", rfl⟩)
    (fun j r hr => by
      have : r = "keep going" := by
        have := hr
        simp [fixAIContinue] at this
        exact this.symm
      subst this
      constructor <;> decide)
  exact h

/-- C9: for every mission and every collaborator behaviour (including
throwing ones), a mission run returns a structured execution result
and never propagates an exception — in both controller variants. -/
theorem structured_result_always (p : SwitchProps) (ai : SwitchAI)
    (sp : SmithProps) (sai : SmithAI) (task task2 : String) :
    (Switch.run p ai task).isOk = true ∧
    (Smith.executeMission sp sai task2).isOk = true := by
  constructor
  · rcases h : Switch.runBody p ai task with ⟨exec, mem, err?⟩
    cases err? <;> simp [Switch.run, h, Except.isOk, Except.toBool]
  · rcases h : Smith.runBody sp sai task2 with ⟨exec, sm, wm, err?⟩
    cases err? <;> simp [Smith.executeMission, h, Except.isOk, Except.toBool]

/-- C10: an analysis reply classifying as failed makes the loop stop
with `completed = true`, and `run` then generates a final report and
returns it in `result` — a failed mission is indistinguishable from a
completed one through the `completed` flag. -/
theorem failed_reply_sets_completed :
    (∀ (p : SwitchProps) (ai : SwitchAI) (exec : SmithExecution) (mem : MemoryState)
       (ns resp ar : String),
      exec.completed = false →
      ai.nextStep (exec.iterations + 1) = .ok ns →
      ai.worker (exec.iterations + 1) = .ok resp →
      ai.analysis (exec.iterations + 1) = .ok ar →
      Switch.classify ar = .failed →
      ∃ exec' mem', switchIterate p ai exec mem = (exec', mem', none) ∧
        exec'.completed = true ∧ exec'.iterations = exec.iterations + 1) ∧
    (∀ (p : SwitchProps) (ai : SwitchAI) (fuel : Nat) (exec : SmithExecution)
       (mem : MemoryState),
      exec.completed = true → switchLoop p ai fuel exec mem = (exec, mem, none)) ∧
    (∀ (p : SwitchProps) (ai : SwitchAI) (task b ns resp ar rep : String),
      1 ≤ p.maxIterations →
      ai.breakdown = .ok b →
      ai.nextStep 1 = .ok ns →
      ai.worker 1 = .ok resp →
      ai.analysis 1 = .ok ar →
      Switch.classify ar = .failed →
      ai.finalReport = .ok rep →
      ∃ exec mem, Switch.run p ai task = .ok (exec, mem) ∧
        exec.completed = true ∧ exec.result = some rep ∧ exec.iterations = 1) := by
  refine ⟨?_, ?_, ?_⟩
  · intro p ai exec mem ns resp ar hnc hns hw ha hcl
    have hit := @switchIterate_ok p ai exec mem ns resp ar hnc hns hw ha
    rw [hcl] at hit
    exact ⟨_, _, hit, by simp, rfl⟩
  · intro p ai fuel exec mem hc
    exact switchLoop_stopped fuel hc
  · intro p ai task b ns resp ar rep hmax hb hns hw ha hcl hrep
    obtain ⟨f, hf⟩ : ∃ f, p.maxIterations = f + 1 := ⟨p.maxIterations - 1, by omega⟩
    have hnc0 : (Switch.execInit task).completed = false := rfl
    have hit := @switchIterate_ok p ai (Switch.execInit task) (Switch.memStart p task b)
      ns resp ar hnc0 hns hw ha
    rw [hcl] at hit
    set exec1 : SmithExecution :=
      { Switch.execInit task with
          iterations := (Switch.execInit task).iterations + 1,
          messages := (Switch.execInit task).messages ++
            [⟨.assistant, "Planning: " ++ ns⟩, ⟨.assistant, resp⟩],
          completed := decide (Classification.failed ≠ Classification.next_task) }
      with hexec1
    set mem3 : MemoryState :=
      (Memory.pop (Memory.push
        (Memory.push (Switch.memStart p task b) (mkItem ⟨.assistant, resp⟩)).1
        (mkItem ⟨.user, SimpleTemplateEngine.render
          p.templateInstructions.resultAnalysis.prompt
          (Switch.analysisVars p ((Switch.execInit task).iterations + 1))⟩)).1).1 with hmem3
    have hc1 : exec1.completed = true := by simp [hexec1]
    have hloop : switchLoop p ai p.maxIterations (Switch.execInit task)
        (Switch.memStart p task b) = (exec1, mem3, none) := by
      rw [hf]
      have h1 : switchLoop p ai (f + 1) (Switch.execInit task)
          (Switch.memStart p task b) = switchLoop p ai f exec1 mem3 := by
        simp only [switchLoop, hnc0, Bool.false_eq_true, if_false, hit]
      rw [h1]
      exact switchLoop_stopped f hc1
    have hbody := runBody_loop_none_completed hb hloop hc1 hrep
    refine ⟨{ exec1 with result := some rep }, mem3, run_of_body_none hbody, hc1, rfl, rfl⟩

/-- Witness for C10: a first-iteration analysis reply
`"Task failed due to permissions."` yields `completed = true` and a
final report in `result`. -/
theorem failed_reply_sets_completed_witness :
    ∃ exec mem, Switch.run fixSwitchProps fixAIFail "mission" = .ok (exec, mem) ∧
      exec.completed = true ∧ exec.result = some "final report" ∧ exec.iterations = 1 :=
  failed_reply_sets_completed.2.2 fixSwitchProps fixAIFail "mission" "1. do things"
    "step" "did the step" "Task failed due to permissions." "final report"
    (by decide) rfl rfl rfl rfl (by decide) rfl

/-- Counterexample for C1: with `maxIterations = 3` and a planner call
throwing in iteration 1 (all later calls would succeed without
completing), `run` returns after exactly one loop-body entry —
`iterations = 1`, not a continued loop — with the diagnostic user turn
(error message plus the configured fallback strategy) recorded as the
last history entry. -/
theorem collaborator_error_aborts_cex :
    (Switch.run fixSwitchProps fixAIErr "mission").toOption.map
        (fun r => (r.1.iterations, r.1.completed, r.1.result,
          (r.2.items.map (·.data)).getLast?)) =
      some (1, false, none,
        some ⟨.user, "Error occurred: network down. Retry with simpler approach."⟩) := by
  decide

/-- C1 (amended): in both controller variants, an exception thrown by
any collaborator chat call of loop iteration `k` — the planner
(next-instruction), worker, or analysis call in `Switch.run`; the
prompt-generation, worker, or analysis call in `Smith.executeMission` —
is caught once at the top level, a diagnostic user turn combining the
error message with the configured fallback-strategy string is appended
to history (it is the last persisted turn), and the run returns the
partial execution result — the loop does not continue to its next
scheduled iteration. -/
theorem collaborator_error_recovery_amended :
    (∀ (p : SwitchProps) (ai : SwitchAI) (task : String) (k : Nat) (e b : String),
      1 ≤ k → k ≤ p.maxIterations →
      ai.breakdown = .ok b →
      (∀ j, j < k → ∃ s, ai.nextStep j = .ok s) →
      (∀ j, j < k → ∃ s, ai.worker j = .ok s) →
      (∀ j, j < k → ∃ r, ai.analysis j = .ok r ∧ Switch.classify r = .next_task) →
      (ai.nextStep k = .error e ∨
        (∃ ns, ai.nextStep k = .ok ns ∧ ai.worker k = .error e) ∨
        (∃ ns resp, ai.nextStep k = .ok ns ∧ ai.worker k = .ok resp ∧
          ai.analysis k = .error e)) →
      ∃ exec memT, Switch.run p ai task =
          .ok (exec, (Memory.push memT (mkItem ⟨.user,
            "Error occurred: " ++ e ++ ". " ++
              p.identity.errorRecovery.fallbackStrategy⟩)).1) ∧
        exec.iterations = k ∧ exec.completed = false ∧ exec.result = none ∧
        (Memory.getMessages (Memory.push memT (mkItem ⟨.user,
            "Error occurred: " ++ e ++ ". " ++
              p.identity.errorRecovery.fallbackStrategy⟩)).1).getLast? =
          some ⟨.user, "Error occurred: " ++ e ++ ". " ++
            p.identity.errorRecovery.fallbackStrategy⟩) ∧
    (∀ (p : SmithProps) (ai : SmithAI) (task : String) (k : Nat) (e b : String),
      1 ≤ k → k ≤ p.maxIterations →
      ai.breakdown = .ok b →
      (∀ j, j < k → ∃ s, ai.promptGen j = .ok s) →
      (∀ j, j < k → ∃ s, ai.worker j = .ok s) →
      (∀ j, j < k → ∃ r, ai.analysis j = .ok r ∧ Smith.analyzeClassify r = .next_task) →
      (ai.promptGen k = .error e ∨
        (∃ wp, ai.promptGen k = .ok wp ∧ ai.worker k = .error e) ∨
        (∃ wp resp, ai.promptGen k = .ok wp ∧ ai.worker k = .ok resp ∧
          ai.analysis k = .error e)) →
      ∃ exec smT wm, Smith.executeMission p ai task =
          .ok (exec, smT ++ [⟨.user, "Error occurred: " ++ e ++ ". " ++
            p.identity.errorRecovery.fallbackStrategy⟩], wm) ∧
        exec.iterations = k ∧ exec.completed = false ∧ exec.result = none ∧
        (smT ++ [⟨.user, "Error occurred: " ++ e ++ ". " ++
            p.identity.errorRecovery.fallbackStrategy⟩]).getLast? =
          some ⟨.user, "Error occurred: " ++ e ++ ". " ++
            p.identity.errorRecovery.fallbackStrategy⟩) := by
  constructor
  · intro p ai task k e b hk1 hkmax hb hns hw ha hsite
    obtain ⟨exec', mem', heq, hc', hit', hres, hmax, hlen⟩ :=
      switchLoop_err_any hns hw ha hsite p.maxIterations (Switch.execInit task)
        (Switch.memStart p task b) rfl (by simp [Switch.execInit]; omega)
        (by simp [Switch.execInit]; omega)
    have hrun := run_of_body_err (runBody_loop_err hb heq)
    refine ⟨exec', mem', hrun, hit', hc', ?_, ?_⟩
    · simpa [Switch.execInit] using hres
    · have hmax' : 1 ≤ mem'.maxItems := by
        rw [hmax, memStart_maxItems]
        omega
      have hinv : mem'.items.length ≤ mem'.maxItems := by
        apply hlen
        rw [memStart_len, memStart_maxItems]
        omega
      unfold Memory.getMessages
      rw [List.getLast?_map, Memory.push_getLast hmax' hinv]
      rfl
  · intro p ai task k e b hk1 hkmax hb hpg hw ha hsite
    obtain ⟨exec', sm', wm', heq, hc', hit', hres⟩ :=
      smithLoop_err_any hpg hw ha hsite p.maxIterations (Smith.execInit task)
        (Smith.smStart p task b) (Smith.wmInit p) rfl
        (by simp [Smith.execInit]; omega) (by simp [Smith.execInit]; omega)
    have hrun := smith_exec_of_body_err (smith_runBody_loop_err hb heq)
    refine ⟨exec', sm', wm', hrun, hit', hc', ?_, ?_⟩
    · simpa [Smith.execInit] using hres
    · exact List.getLast?_concat sm'

/-- Witness for C1 (amended): a throw from the analysis call of the
Switch variant's first iteration, and a throw from the worker call of
the Smith variant's first iteration. -/
theorem collaborator_error_recovery_amended_witness :
    (∃ exec memT, Switch.run fixSwitchProps fixAIErrAnalysis "mission" =
        .ok (exec, (Memory.push memT (mkItem ⟨.user,
          "Error occurred: " ++ "provider down" ++ ". " ++
            fixSwitchProps.identity.errorRecovery.fallbackStrategy⟩)).1) ∧
      exec.iterations = 1 ∧ exec.completed = false ∧ exec.result = none ∧
      (Memory.getMessages (Memory.push memT (mkItem ⟨.user,
          "Error occurred: " ++ "provider down" ++ ". " ++
            fixSwitchProps.identity.errorRecovery.fallbackStrategy⟩)).1).getLast? =
        some ⟨.user, "Error occurred: " ++ "provider down" ++ ". " ++
          fixSwitchProps.identity.errorRecovery.fallbackStrategy⟩) ∧
    (∃ exec smT wm, Smith.executeMission fixSmithProps fixSmithAIErr "mission" =
        .ok (exec, smT ++ [⟨.user, "Error occurred: " ++ "tool crash" ++ ". " ++
          fixSmithProps.identity.errorRecovery.fallbackStrategy⟩], wm) ∧
      exec.iterations = 1 ∧ exec.completed = false ∧ exec.result = none ∧
      (smT ++ [⟨.user, "Error occurred: " ++ "tool crash" ++ ". " ++
          fixSmithProps.identity.errorRecovery.fallbackStrategy⟩]).getLast? =
        some ⟨.user, "Error occurred: " ++ "tool crash" ++ ". " ++
          fixSmithProps.identity.errorRecovery.fallbackStrategy⟩) := by
  constructor
  · exact collaborator_error_recovery_amended.1 fixSwitchProps fixAIErrAnalysis "mission" 1
      "provider down" "1. do things" (by decide) (by decide) rfl
      (fun j hj => ⟨"step", rfl⟩)
      (fun j hj => ⟨"did the step", rfl⟩)
      (fun j hj => ⟨"keep going", by
        have hj0 : j = 0 := by omega
        subst hj0
        exact ⟨rfl, by decide⟩⟩)
      (Or.inr (Or.inr ⟨"step", "did the step", rfl, rfl, rfl⟩))
  · exact collaborator_error_recovery_amended.2 fixSmithProps fixSmithAIErr "mission" 1
      "tool crash" "1. do things" (by decide) (by decide) rfl
      (fun j hj => ⟨"use the weather tool", rfl⟩)
      (fun j hj => ⟨"fetched the weather", by
        have hj0 : j = 0 := by omega
        subst hj0
        rfl⟩)
      (fun j hj => ⟨"keep going", rfl, by decide⟩)
      (Or.inr (Or.inl ⟨"use the weather tool", rfl, rfl⟩))

/-- C3: after one full (exception-free) loop iteration, the analysis
prompt and the analysis reply are absent from the persisted
history/memory — the only new memory entry is the worker's reply, and
the only new execution-history entries are the worker's instruction
(recorded as the `Planning:` turn in the Switch variant, as a user
turn in the Smith variant) and the worker's reply. -/
theorem analysis_transience :
    (∀ (p : SwitchProps) (ai : SwitchAI) (exec : SmithExecution) (mem : MemoryState)
        (ns resp ar : String),
      exec.completed = false →
      mem.items.length + 2 ≤ mem.maxItems →
      ai.nextStep (exec.iterations + 1) = .ok ns →
      ai.worker (exec.iterations + 1) = .ok resp →
      ai.analysis (exec.iterations + 1) = .ok ar →
      ∃ exec' mem', switchIterate p ai exec mem = (exec', mem', none) ∧
        Memory.getMessages mem' = Memory.getMessages mem ++ [⟨.assistant, resp⟩] ∧
        exec'.messages = exec.messages ++
          [⟨.assistant, "Planning: " ++ ns⟩, ⟨.assistant, resp⟩]) ∧
    (∀ (p : SmithProps) (ai : SmithAI) (exec : SmithExecution) (sm wm : List ChatMessage)
        (wp resp ar : String),
      exec.completed = false →
      ai.promptGen (exec.iterations + 1) = .ok wp →
      ai.worker (exec.iterations + 1) = .ok resp →
      ai.analysis (exec.iterations + 1) = .ok ar →
      ∃ exec', smithIterate p ai exec sm wm =
        (exec', sm ++ [⟨.user, wp⟩, ⟨.assistant, resp⟩],
          wm ++ [⟨.user, wp⟩, ⟨.assistant, resp⟩], none) ∧
        exec'.messages = exec.messages ++ [⟨.user, wp⟩, ⟨.assistant, resp⟩]) := by
  constructor
  · intro p ai exec mem ns resp ar hnc hroom hns hw ha
    have hit := @switchIterate_ok p ai exec mem ns resp ar hnc hns hw ha
    refine ⟨_, _, hit, ?_, rfl⟩
    unfold Memory.getMessages
    rw [switchIterate_mem_shape hroom]
    simp [mkItem]
  · intro p ai exec sm wm wp resp ar hnc hpg hw ha
    have hit := @smithIterate_ok p ai exec sm wm wp resp ar hnc hpg hw ha
    exact ⟨_, hit, rfl⟩

/-- Witness for C3: one concrete iteration of each controller variant. -/
theorem analysis_transience_witness :
    (∃ exec' mem', switchIterate fixSwitchProps fixAIContinue fixExec fixMem =
        (exec', mem', none) ∧
      Memory.getMessages mem' =
        Memory.getMessages fixMem ++ [⟨.assistant, "did the step"⟩] ∧
      exec'.messages = fixExec.messages ++
        [⟨.assistant, "Planning: step"⟩, ⟨.assistant, "did the step"⟩]) ∧
    (∃ exec', smithIterate fixSmithProps fixSmithAI fixExec
        [⟨.system, "You are Smith."⟩] [⟨.system, "You are the worker."⟩] =
      (exec', [⟨.system, "You are Smith."⟩] ++
          [⟨.user, "use the weather tool"⟩, ⟨.assistant, "fetched the weather"⟩],
        [⟨.system, "You are the worker."⟩] ++
          [⟨.user, "use the weather tool"⟩, ⟨.assistant, "fetched the weather"⟩], none) ∧
      exec'.messages = fixExec.messages ++
        [⟨.user, "use the weather tool"⟩, ⟨.assistant, "fetched the weather"⟩]) := by
  constructor
  · exact analysis_transience.1 fixSwitchProps fixAIContinue fixExec fixMem
      "step" "did the step" "keep going" rfl (by decide) rfl rfl rfl
  · exact analysis_transience.2 fixSmithProps fixSmithAI fixExec
      [⟨.system, "You are Smith."⟩] [⟨.system, "You are the worker."⟩]
      "use the weather tool" "fetched the weather" "keep going" rfl rfl rfl rfl
